import Mathlib

/-!
# The dynamic value model of `src/Playground/core.h`

A shallow embedding of the `js` namespace of `core.h`: the absence marker, the
primitive wrappers `boolean`, `number` and `string`, the containers `array` and
`object`, and the tagged union `any` with its operators.

Conventions of the embedding.

* A C++ `double` is an IEEE 754 binary64 bit pattern (`Double`): sign, biased
  exponent and fraction.  Arithmetic is exact arithmetic followed by rounding to
  nearest, ties to even.
* A `std::string` is a list of bytes (`std_string`); a `const char*` is the
  buffer it points to, which is read up to its first zero byte.
* `new` allocates in an explicit heap (`Heap`) and always succeeds.  The source
  never releases an allocation, so an address is never handed out twice.
* A C++ `throw "..."` is the outcome `thrown "..."`; dereferencing a pointer
  that does not point to an object of the expected type, or reading a member of
  the union `anyType` that is not the active one, is the outcome
  `undefinedBehavior`.
-/

namespace js

/-! ## Outcomes -/

/-- The result of running an operation of `core.h` that may throw. -/
inductive Outcome (α : Type) where
  /-- normal return -/
  | ok (value : α)
  /-- `throw "what"` -/
  | thrown (what : String)
  /-- an invalid pointer or an inactive union member was read -/
  | undefinedBehavior
  deriving DecidableEq, Repr

/-! ## Bytes and strings -/

/-- One `char` of a `std::string`. -/
abbrev Byte := Fin 256

/-- The content of a `std::string`: any sequence of bytes, zero bytes included. -/
abbrev std_string := List Byte

/-- The bytes of a string literal of the source. -/
def literal (s : String) : std_string :=
  s.toList.map (fun c => Fin.ofNat c.toNat)

/-- `std::string::c_str()`: the content followed by the terminating zero byte. -/
def c_str (s : std_string) : List Byte := s ++ [0]

/-- `std::string(const char*)`: the bytes of the buffer before its first zero byte. -/
def std_string_of_c_str (buffer : List Byte) : std_string :=
  buffer.takeWhile (fun c => c != 0)

/-- `std::strcmp` on two zero-terminated buffers: the comparison stops at the first
position where the buffers differ or where both hold the zero byte.  `none` when a
buffer ends before that (a read past the end of the buffer). -/
def strcmp : List Byte → List Byte → Option Int
  | a :: as, b :: bs =>
    if a ≠ b then some ((a.val : Int) - (b.val : Int))
    else if a.val = 0 then some 0
    else strcmp as bs
  | _, _ => none

/-! ## IEEE 754 binary64 -/

/-- A C++ `double`: the three fields of an IEEE 754 binary64 bit pattern. -/
structure Double where
  /-- sign bit -/
  sign : Bool
  /-- biased exponent, 11 bits -/
  expo : Fin 2048
  /-- fraction, 52 bits -/
  frac : Fin 4503599627370496
  deriving DecidableEq, Repr

namespace Double

/-- Not a number: exponent all ones, fraction non-zero. -/
def isNaN (d : Double) : Bool := d.expo.val == 2047 && d.frac.val != 0

/-- An infinity: exponent all ones, fraction zero. -/
def isInf (d : Double) : Bool := d.expo.val == 2047 && d.frac.val == 0

/-- Plus or minus zero. -/
def isZero (d : Double) : Bool := d.expo.val == 0 && d.frac.val == 0

/-- The significand of a finite double, as an integer. -/
def significand (d : Double) : Nat :=
  if d.expo.val = 0 then d.frac.val else 4503599627370496 + d.frac.val

/-- The exponent of the last place of a finite double: its value is
`(-1)^sign * significand * 2^exponent`. -/
def exponent (d : Double) : Int :=
  if d.expo.val = 0 then -1074 else (d.expo.val : Int) - 1075

/-- The quiet NaN that an invalid operation on operands that are not NaN produces
(`0/0`, `inf - inf`, `0 * inf`, `inf / inf`).  IEEE 754 leaves its sign and payload to
the implementation; this is the default NaN of x86-64. -/
def nan : Double := ⟨true, ⟨2047, by decide⟩, ⟨2251799813685248, by decide⟩⟩

/-- A NaN made quiet: the top bit of the fraction is set, the sign and the other bits of
the fraction are kept. -/
def quiet (d : Double) : Double :=
  let f : Nat :=
    if d.frac.val < 2251799813685248 then d.frac.val + 2251799813685248 else d.frac.val
  { d with frac := Fin.ofNat f }

/-- The result of an arithmetic operator with a NaN operand: the first operand that is
NaN, made quiet.  This is the rule of the x86-64 instructions, which IEEE 754
recommends.  When both operands are NaN the model takes the first in source order;
for `+` and `*` a compiler may exchange the operands of the instruction, so that
there the result of a build is one of the two, made quiet. -/
def propagate (a b : Double) : Double := if a.isNaN then quiet a else quiet b

/-- Signed infinity. -/
def inf (sign : Bool) : Double := ⟨sign, ⟨2047, by decide⟩, ⟨0, by decide⟩⟩

/-- Signed zero. -/
def zero (sign : Bool) : Double := ⟨sign, ⟨0, by decide⟩, ⟨0, by decide⟩⟩

/-- Round `n / 2^shift` to the nearest integer, ties to the even one. -/
def roundShift (n shift : Nat) : Nat :=
  let q := n / 2 ^ shift
  let r := n % 2 ^ shift
  let half := 2 ^ shift / 2
  if shift = 0 then n
  else if r > half ∨ (r = half ∧ q % 2 = 1) then q + 1
  else q

/-- The position of the highest set bit of `m`, for `m < 2 ^ fuel`. -/
def highBit : Nat → Nat → Nat
  | 0, _ => 0
  | fuel + 1, m => if m < 2 then 0 else highBit fuel (m / 2) + 1

/-- The integer part of the binary logarithm of `m`, and `0` for `m = 0`. -/
def log2 (m : Nat) : Nat := highBit m m

/-- The double nearest to `(-1)^sign * m * 2^e` (ties to even), infinity on overflow. -/
def round (sign : Bool) (m : Nat) (e : Int) : Double :=
  if m = 0 then zero sign
  else
    -- exponent of the last place of the result
    let ulp : Int := max ((log2 m : Int) + e - 52) (-1074)
    let m1 : Nat := if e ≤ ulp then roundShift m (ulp - e).toNat else m * 2 ^ (e - ulp).toNat
    -- rounding up may reach the next binade
    let m2 : Nat := if m1 = 9007199254740992 then 4503599627370496 else m1
    let ulp2 : Int := if m1 = 9007199254740992 then ulp + 1 else ulp
    if m2 < 4503599627370496 then ⟨sign, ⟨0, by decide⟩, Fin.ofNat m2⟩
    else if ulp2 + 1075 ≥ 2047 then inf sign
    else ⟨sign, Fin.ofNat (ulp2 + 1075).toNat, Fin.ofNat (m2 - 4503599627370496)⟩

/-- Conversion of an integer to `double` (`static_cast<double>` of an integral value). -/
def ofInt (n : Int) : Double := round (decide (n < 0)) n.natAbs 0

/-- The operator `==` of `double`: false when an operand is NaN, zeros of both signs
are equal, otherwise equality of the bit patterns. -/
def eq (a b : Double) : Bool :=
  !a.isNaN && !b.isNaN && ((a.isZero && b.isZero) || decide (a = b))

/-- Unary minus. -/
def neg (a : Double) : Double := { a with sign := !a.sign }

/-- The operator `+` of `double`. -/
def add (a b : Double) : Double :=
  if a.isNaN || b.isNaN then propagate a b
  else if a.isInf then (if b.isInf && (a.sign != b.sign) then nan else a)
  else if b.isInf then b
  else
    let e : Int := min a.exponent b.exponent
    let x : Int := (if a.sign then -1 else 1) * (a.significand * 2 ^ (a.exponent - e).toNat : Nat)
    let y : Int := (if b.sign then -1 else 1) * (b.significand * 2 ^ (b.exponent - e).toNat : Nat)
    let s : Int := x + y
    if s = 0 then zero (a.sign && b.sign)
    else round (decide (s < 0)) s.natAbs e

/-- The operator `-` of `double`. -/
def sub (a b : Double) : Double :=
  if a.isNaN || b.isNaN then propagate a b else add a (neg b)

/-- The operator `*` of `double`. -/
def mul (a b : Double) : Double :=
  if a.isNaN || b.isNaN then propagate a b
  else if a.isInf || b.isInf then
    (if a.isZero || b.isZero then nan else inf (a.sign != b.sign))
  else round (a.sign != b.sign) (a.significand * b.significand) (a.exponent + b.exponent)

/-- The operator `/` of `double`.  Division by zero does not trap: it gives an
infinity, or NaN for `0/0`. -/
def div (a b : Double) : Double :=
  if a.isNaN || b.isNaN then propagate a b
  else if a.isInf then (if b.isInf then nan else inf (a.sign != b.sign))
  else if b.isInf then zero (a.sign != b.sign)
  else if b.isZero then (if a.isZero then nan else inf (a.sign != b.sign))
  else
    -- 110 extra quotient bits, then one sticky bit for the remainder
    let n : Nat := a.significand * 2 ^ 110
    let q : Nat := n / b.significand
    let sticky : Nat := if n % b.significand = 0 then 0 else 1
    round (a.sign != b.sign) (2 * q + sticky) (a.exponent - b.exponent - 111)

end Double

/-! ## The absence marker and the primitive wrappers -/

/-- The `struct undefined_t`: the absence marker, and the base of every wrapper. -/
structure undefined_t where
  /-- absence flag -/
  isUndefined : Bool
  deriving DecidableEq, Repr

namespace undefined_t

/-- The constructor `undefined_t ()`. -/
def ctor : undefined_t := { isUndefined := false }

/-- The constructor `undefined_t (bool value)`. -/
def ofBool (value : Bool) : undefined_t := { isUndefined := value }

/-- The conversion `undefined_t::operator bool()`. -/
def toBool (self : undefined_t) : Bool := !self.isUndefined

end undefined_t

/-- The global `undefined(true)`. -/
def undefined : undefined_t := undefined_t.ofBool true

/-- The `struct boolean`. -/
structure boolean extends undefined_t where
  /-- payload -/
  _value : Bool
  deriving DecidableEq, Repr

namespace boolean

/-- The constructor `boolean ()`. -/
def ctor : boolean := { undefined_t.ofBool true with _value := false }

/-- The constructor `boolean (bool initValue)`; the base is `undefined_t ()`. -/
def ofBool (initValue : Bool) : boolean := { undefined_t.ctor with _value := initValue }

/-- The constructor `boolean (const undefined_t& undef)`.  It leaves `_value`
uninitialised: `indeterminate` is whatever the field holds. -/
def ofUndefined (_undef : undefined_t) (indeterminate : Bool) : boolean :=
  { undefined_t.ofBool true with _value := indeterminate }

/-- The conversion `boolean::operator bool() const`. -/
def toBool (self : boolean) : Bool :=
  if self.isUndefined then false else self._value

end boolean

/-- The `struct number`. -/
structure number extends undefined_t where
  /-- payload -/
  _value : Double
  deriving DecidableEq, Repr

namespace number

/-- The constructor `number ()`. -/
def ctor : number := { undefined_t.ofBool true with _value := Double.zero false }

/-- The constructor template `number (T initValue)` at an integral `T`: the value
`initValue` of `T` is converted to `double`. -/
def ofIntegral (initValue : Int) : number :=
  { undefined_t.ctor with _value := Double.ofInt initValue }

/-- The constructor template `number (T initValue)` at `T = double`. -/
def ofDouble (initValue : Double) : number :=
  { undefined_t.ctor with _value := initValue }

/-- The constructor template `number (T initValue)` at `T = js::boolean`: the
assignment `_value = static_cast<T>(initValue)` converts the wrapper with
`boolean::operator bool()` and the `bool` to `double`. -/
def ofBoolean (initValue : boolean) : number :=
  { undefined_t.ctor with
    _value := if initValue.toBool then Double.ofInt 1 else Double.ofInt 0 }

/-- The constructor `number (const undefined_t& undef)`.  It leaves `_value`
uninitialised: `indeterminate` is whatever the field holds. -/
def ofUndefined (_undef : undefined_t) (indeterminate : Double) : number :=
  { undefined_t.ofBool true with _value := indeterminate }

/-- The operator `number operator +(number n)`. -/
def add (self n : number) : number := ofDouble (Double.add self._value n._value)

/-- The operator `number operator -(number n)`. -/
def sub (self n : number) : number := ofDouble (Double.sub self._value n._value)

/-- The operator `number operator *(number n)`. -/
def mul (self n : number) : number := ofDouble (Double.mul self._value n._value)

/-- The operator `number operator /(number n)`. -/
def div (self n : number) : number := ofDouble (Double.div self._value n._value)

/-- The operator `bool operator ==(number n)`. -/
def eq (self n : number) : Bool := Double.eq self._value n._value

end number

/-- The `struct string`. -/
structure string extends undefined_t where
  /-- payload -/
  _value : std_string
  deriving DecidableEq, Repr

namespace string

/-- The constructor `string ()`. -/
def ctor : string := { undefined_t.ofBool true with _value := [] }

/-- The constructor `string (std::string value)`. -/
def ofStdString (value : std_string) : string := { undefined_t.ctor with _value := value }

/-- The constructor `string (const char* value)`: `value` is the buffer pointed to. -/
def ofCStr (value : List Byte) : string :=
  { undefined_t.ctor with _value := std_string_of_c_str value }

/-- The constructor `string (const undefined_t& undef)`: `_value` is the empty string. -/
def ofUndefined (_undef : undefined_t) : string := { undefined_t.ofBool true with _value := [] }

end string

/-! ## The tagged union `any` -/

/-- The `enum anyTypeId`, in declaration order. -/
inductive any.anyTypeId where
  | undefined
  | boolean
  | number
  | string
  | function
  | array
  | object
  deriving DecidableEq, Repr

/-- The `union anyType`: exactly one member is active.  A pointer `_data` is an
address of the heap, `0` being `nullptr`. -/
inductive any.anyType where
  | _boolean (b : boolean)
  | _number (n : number)
  | _data (p : Nat)
  deriving DecidableEq, Repr

/-- The `struct any`: the kind tag and the payload. -/
structure any where
  /-- kind tag -/
  _type : any.anyTypeId
  /-- payload -/
  _value : any.anyType
  deriving DecidableEq, Repr

/-! ## Containers and the heap -/

/-- The `struct array`: `_values` is a `std::vector<any>`. -/
structure array extends undefined_t where
  /-- elements -/
  _values : List any
  deriving DecidableEq, Repr

/-- The `struct object`: `_values` is a `std::unordered_map<std::string, any>`, kept as
the list of its entries. -/
structure object extends undefined_t where
  /-- entries -/
  _values : List (std_string × any)
  deriving DecidableEq, Repr

namespace unordered_map

/-- The value stored under `key`, as found by `std::unordered_map::find`. -/
def find (m : List (std_string × any)) (key : std_string) : Option any :=
  (m.find? (fun entry => entry.1 == key)).map (fun entry => entry.2)

/-- The member `std::unordered_map::erase(const key_type&)`: the entries under `key`
are removed, the others are kept. -/
def erase (m : List (std_string × any)) (key : std_string) : List (std_string × any) :=
  m.filter (fun entry => entry.1 != key)

end unordered_map

/-- An object allocated with `new`. -/
inductive Cell where
  | string (s : js.string)
  | array (a : js.array)
  | object (o : js.object)
  deriving DecidableEq, Repr

/-- The heap: the allocations made so far, in order.  The allocation number `i`
(from zero) lives at address `i + 1`; nothing is ever released. -/
structure Heap where
  /-- allocations -/
  cells : List Cell
  deriving DecidableEq, Repr

namespace Heap

/-- The object at address `p`, if `p` is the address of an allocation. -/
def deref (h : Heap) (p : Nat) : Option Cell :=
  if p = 0 then none else h.cells.get? (p - 1)

/-- The expression `new T(c)`: a fresh address and the extended heap. -/
def alloc (h : Heap) (c : Cell) : Nat × Heap :=
  (h.cells.length + 1, { cells := h.cells ++ [c] })

/-- Assignment through a valid pointer `p`. -/
def store (h : Heap) (p : Nat) (c : Cell) : Heap :=
  { cells := h.cells.set (p - 1) c }

end Heap

/-! ## Construction of an `any` -/

namespace any

/-- The constructor `anyType()`, also `anyType(std::nullptr_t)`: `_data(nullptr)`. -/
def anyType.ctor : anyType := anyType._data 0

/-- The cast `(js::string*)_value._data` followed by a dereference. -/
def anyType.asString (h : Heap) : anyType → Option js.string
  | anyType._data p =>
    match h.deref p with
    | some (Cell.string s) => some s
    | _ => none
  | _ => none

/-- The cast `(js::array*)_value._data` followed by a dereference. -/
def anyType.asArray (h : Heap) : anyType → Option js.array
  | anyType._data p =>
    match h.deref p with
    | some (Cell.array a) => some a
    | _ => none
  | _ => none

/-- The cast `(js::object*)_value._data` followed by a dereference. -/
def anyType.asObject (h : Heap) : anyType → Option js.object
  | anyType._data p =>
    match h.deref p with
    | some (Cell.object o) => some o
    | _ => none
  | _ => none

/-- The constructor `any()`. -/
def ctor : any := { _type := anyTypeId.undefined, _value := anyType.ctor }

/-- The constructor `any (const undefined_t& undef)`. -/
def ofUndefined (_undef : undefined_t) : any :=
  { _type := anyTypeId.undefined, _value := anyType.ctor }

/-- The constructor template `any(T initValue)` at an integral `T`: the union is
built by `anyType(T t): _number(t)`. -/
def ofIntegral (initValue : Int) : any :=
  { _type := anyTypeId.number, _value := anyType._number (number.ofIntegral initValue) }

/-- The constructor `any(bool value)`: the union is built by `anyType(bool value)`. -/
def ofBool (value : Bool) : any :=
  { _type := anyTypeId.boolean, _value := anyType._boolean (boolean.ofBool value) }

/-- The constructor `any(js::boolean value)`.  Its initialiser `_value(value)` selects
the constructor template `anyType(T t): _number(t)` at `T = js::boolean`: the default
template argument `std::enable_if<...>` names a type for every `T`, so the template
is never disabled, and it takes `value` as it is, where `anyType(bool value)` needs
the conversion `boolean::operator bool()`.  The tag is `boolean` and the active
member of the union is `_number`. -/
def ofBoolean (value : boolean) : any :=
  { _type := anyTypeId.boolean, _value := anyType._number (number.ofBoolean value) }

/-- The constructor `any(js::number value)`. -/
def ofNumber (value : number) : any :=
  { _type := anyTypeId.number, _value := anyType._number value }

/-- The constructor `any(const js::string& value)`: the payload points to a fresh
copy `new js::string(value)`. -/
def ofString (value : js.string) (h : Heap) : any × Heap :=
  let r := h.alloc (Cell.string value)
  ({ _type := anyTypeId.string, _value := anyType._data r.1 }, r.2)

/-- The constructor `any(const js::array& value)`: the payload points to a fresh
copy `new js::array(value)`. -/
def ofArray (value : js.array) (h : Heap) : any × Heap :=
  let r := h.alloc (Cell.array value)
  ({ _type := anyTypeId.array, _value := anyType._data r.1 }, r.2)

/-- The constructor `any(const js::object& value)`: the payload points to a fresh
copy `new js::object(value)`. -/
def ofObject (value : js.object) (h : Heap) : any × Heap :=
  let r := h.alloc (Cell.object value)
  ({ _type := anyTypeId.object, _value := anyType._data r.1 }, r.2)

/-! ## The operators of `any` -/

/-- The member template `any& operator[] (T t)`.  The indexing operators of `array`
and `object` are declared in `core.h` but defined elsewhere: they are the
parameters `arrayIndex` and `objectIndex`, with any result type `ρ`. -/
def index {I ρ : Type} (arrayIndex : js.array → I → ρ) (objectIndex : js.object → I → ρ)
    (h : Heap) (self : any) (t : I) : Outcome ρ :=
  if self._type = anyTypeId.array then
    match anyType.asArray h self._value with
    | some a => Outcome.ok (arrayIndex a t)
    | none => Outcome.undefinedBehavior
  else if self._type = anyTypeId.object then
    match anyType.asObject h self._value with
    | some o => Outcome.ok (objectIndex o t)
    | none => Outcome.undefinedBehavior
  else Outcome.thrown "wrong type"

/-- The conversion `operator string()`. -/
def toString (h : Heap) (self : any) : Outcome js.string :=
  if self._type = anyTypeId.string then
    match anyType.asString h self._value with
    | some s => Outcome.ok s
    | none => Outcome.undefinedBehavior
  else Outcome.thrown "wrong type"

/-- The conversion `operator bool()`. -/
def toBool (self : any) : Bool := self._type != anyTypeId.undefined

/-- The friend `bool operator ==(const js::any& value, const js::any& other)`. -/
def eq (h : Heap) (value other : any) : Outcome Bool :=
  if value._type ≠ other._type then Outcome.ok false
  else
    match value._type with
    | anyTypeId.undefined => Outcome.ok true
    | anyTypeId.boolean =>
      match value._value, other._value with
      | anyType._boolean a, anyType._boolean b => Outcome.ok (a._value == b._value)
      | _, _ => Outcome.undefinedBehavior
    | anyTypeId.number =>
      match value._value, other._value with
      | anyType._number a, anyType._number b => Outcome.ok (Double.eq a._value b._value)
      | _, _ => Outcome.undefinedBehavior
    | anyTypeId.string =>
      match anyType.asString h value._value, anyType.asString h other._value with
      | some a, some b =>
        match strcmp (c_str a._value) (c_str b._value) with
        | some r => Outcome.ok (r == 0)
        | none => Outcome.undefinedBehavior
      | _, _ => Outcome.undefinedBehavior
    | anyTypeId.object =>
      match value._value, other._value with
      | anyType._data p, anyType._data q => Outcome.ok (p == q)
      | _, _ => Outcome.undefinedBehavior
    | _ => Outcome.thrown "not implemented"

/-- The shape shared by `operator +`, `-`, `*` and `/` on `const any&`: the nested
switches on `_type` and `t._type`, with `op` the operator of `number` applied in the
number/number case. -/
def arith (op : number → number → number) (self t : any) : Outcome any :=
  match self._type with
  | anyTypeId.number =>
    match t._type with
    | anyTypeId.number =>
      match self._value, t._value with
      | anyType._number a, anyType._number b => Outcome.ok (ofNumber (op a b))
      | _, _ => Outcome.undefinedBehavior
    | _ => Outcome.thrown "not implemented"
  | _ => Outcome.thrown "not implemented"

/-- The operator `any operator +(const any& t)`. -/
def add (self t : any) : Outcome any := arith number.add self t

/-- The operator `any operator -(const any& t)`. -/
def sub (self t : any) : Outcome any := arith number.sub self t

/-- The operator `any operator *(const any& t)`. -/
def mul (self t : any) : Outcome any := arith number.mul self t

/-- The operator `any operator /(const any& t)`. -/
def div (self t : any) : Outcome any := arith number.div self t

/-- The member `js::string typeOf()`: each `return "..."` converts the literal with
`string (const char* value)`. -/
def typeOf (self : any) : js.string :=
  match self._type with
  | anyTypeId.undefined => string.ofCStr (c_str (literal "undefined"))
  | anyTypeId.boolean => string.ofCStr (c_str (literal "boolean"))
  | anyTypeId.number => string.ofCStr (c_str (literal "number"))
  | anyTypeId.string => string.ofCStr (c_str (literal "string"))
  | anyTypeId.array => string.ofCStr (c_str (literal "array"))
  | anyTypeId.object => string.ofCStr (c_str (literal "object"))
  | _ => string.ofCStr (c_str (literal "error"))

/-- The member `void Delete(const char *field)`: `field` is the buffer pointed to.
The result is the outcome, the receiver afterwards and the heap afterwards. -/
def Delete (self : any) (field : List Byte) (h : Heap) : Outcome Unit × any × Heap :=
  match self._type with
  | anyTypeId.object =>
    match self._value with
    | anyType._data p =>
      match h.deref p with
      | some (Cell.object o) =>
        (Outcome.ok (), self,
          h.store p (Cell.object
            { o with _values := unordered_map.erase o._values (std_string_of_c_str field) }))
      | _ => (Outcome.undefinedBehavior, self, h)
    | _ => (Outcome.undefinedBehavior, self, h)
  | _ => (Outcome.thrown "wrong type", self, h)

/-- The tag and the payload agree: a boolean or number holds the matching member of
the union, a string, sequence or mapping points to an allocation of its type.  The
operators read no payload of an absent or callable value. -/
def valid (h : Heap) (v : any) : Bool :=
  match v._type, v._value with
  | anyTypeId.undefined, _ => true
  | anyTypeId.function, _ => true
  | anyTypeId.boolean, anyType._boolean _ => true
  | anyTypeId.number, anyType._number _ => true
  | anyTypeId.string, p => (anyType.asString h p).isSome
  | anyTypeId.array, p => (anyType.asArray h p).isSome
  | anyTypeId.object, p => (anyType.asObject h p).isSome
  | _, _ => false

end any

/-- The free function `static string typeOf(any value)`. -/
def typeOf (value : any) : js.string := value.typeOf

/-! ## Definitions used to state the properties -/

/-- A number-kind value whose payload is NaN. -/
def any.holdsNaN (v : any) : Bool :=
  match v._type, v._value with
  | any.anyTypeId.number, any.anyType._number n => n._value.isNaN
  | _, _ => false

/-- The value of `any(number(0)) / any(number(0))`. -/
def zeroOverZero : any :=
  any.ofNumber (number.div (number.ofIntegral 0) (number.ofIntegral 0))

/-- The six type names `"undefined"`, `"boolean"`, `"number"`, `"string"`, `"array"` and
`"object"`, as `js::string` values. -/
def typeNames : List js.string :=
  [string.ofStdString (literal "undefined"), string.ofStdString (literal "boolean"),
   string.ofStdString (literal "number"), string.ofStdString (literal "string"),
   string.ofStdString (literal "array"), string.ofStdString (literal "object")]

/-- A heap holding the string `"hi"` at address 1. -/
def heapWithString : Heap := { cells := [Cell.string (string.ofStdString (literal "hi"))] }

/-- A heap holding the sequence `[7]` at address 1 and the mapping `{"hours": 3}` at
address 2. -/
def heapWithContainers : Heap :=
  { cells :=
      [Cell.array { undefined_t.ctor with _values := [any.ofIntegral 7] },
       Cell.object { undefined_t.ctor with _values := [(literal "hours", any.ofIntegral 3)] }] }

/-- A value of callable kind. -/
def callableValue : any := { _type := any.anyTypeId.function, _value := any.anyType._data 0 }

/-! ## Display -/

/-- The friend `operator <<` of `undefined_t`: the text written to the stream. -/
def undefined_t.display (_val : undefined_t) : std_string :=
  std_string_of_c_str (c_str (literal "undefined"))

/-- The friend `operator <<` of `boolean`: the text written to the stream. -/
def boolean.display (val : boolean) : std_string :=
  if val.toBool then std_string_of_c_str (c_str (literal "true"))
  else std_string_of_c_str (c_str (literal "false"))

/-- The friend `operator <<` of `number`: the text written to the stream.  The text
that a `std::ostream` writes for a `double` depends on the precision and the flags of
the stream: it is the parameter `format`. -/
def number.display (format : Double → std_string) (val : number) : std_string :=
  format val._value

/-- The friend `operator <<` of `string`: the text written to the stream. -/
def string.display (val : js.string) : std_string := val._value

/-- The friend `operator <<` of `array`: the text written to the stream. -/
def array.display (_val : js.array) : std_string :=
  std_string_of_c_str (c_str (literal "[array]"))

/-- The friend `operator <<` of `object`: the text written to the stream. -/
def object.display (_val : js.object) : std_string :=
  std_string_of_c_str (c_str (literal "[object]"))

/-- The friend `operator <<` of `any`: the text written to the stream. -/
def any.display (format : Double → std_string) (h : Heap) (val : any) : Outcome std_string :=
  if val._type = any.anyTypeId.undefined then
    Outcome.ok (std_string_of_c_str (c_str (literal "undefined")))
  else if val._type = any.anyTypeId.boolean then
    match val._value with
    | any.anyType._boolean b => Outcome.ok (boolean.display b)
    | _ => Outcome.undefinedBehavior
  else if val._type = any.anyTypeId.number then
    match val._value with
    | any.anyType._number n => Outcome.ok (number.display format n)
    | _ => Outcome.undefinedBehavior
  else if val._type = any.anyTypeId.string then
    match any.anyType.asString h val._value with
    | some s => Outcome.ok (string.display s)
    | none => Outcome.undefinedBehavior
  else if val._type = any.anyTypeId.function then
    Outcome.ok (std_string_of_c_str (c_str (literal "[function]")))
  else if val._type = any.anyTypeId.array then
    Outcome.ok (std_string_of_c_str (c_str (literal "[array]")))
  else if val._type = any.anyTypeId.object then
    Outcome.ok (std_string_of_c_str (c_str (literal "[object]")))
  else Outcome.ok (std_string_of_c_str (c_str (literal "[any]")))

/-! ## The typed sequence `ReadOnlyArray` -/

/-- The conversion `(size_t)i` of a value `i` of an integral type, for a 64-bit
`size_t`. -/
def size_t_of_int (i : Int) : Nat := (i % 18446744073709551616).toNat

/-- The `struct ReadOnlyArray<T>`. -/
structure ReadOnlyArray (T : Type) where
  /-- the member `number length` -/
  length : number
  /-- elements, a `std::vector<T>` -/
  _values : List T

namespace ReadOnlyArray

/-- The constructor `ReadOnlyArray(std::initializer_list<T> values)`: `length` is
default-constructed. -/
def ofList {T : Type} (values : List T) : ReadOnlyArray T :=
  { length := number.ctor, _values := values }

/-- The member `T operator[] (I i) const` at an integral `I`.  The parameter
`ofUndefined` is the constructor of `T` used by `T(undefined)`. -/
def index {T : Type} (ofUndefined : undefined_t → T) (self : ReadOnlyArray T) (i : Int) : T :=
  if hge : size_t_of_int i ≥ self._values.length then ofUndefined undefined
  else self._values.get ⟨size_t_of_int i, Nat.lt_of_not_ge hge⟩

end ReadOnlyArray

/-! ## Hashing -/

/-- The hash functions that `any::hash` calls.  `std::hash` of `int`, `bool`, `double`,
`std::string` and `void*` belong to the standard library, and `hash_combine` is
declared in `core.h` but defined elsewhere.  Their results are values of
`std::size_t`. -/
structure Hashers where
  /-- the function object `std::hash<int>` -/
  hash_int : Int → Nat
  /-- the function object `std::hash<bool>` -/
  hash_bool : Bool → Nat
  /-- the function object `std::hash<double>` -/
  hash_double : Double → Nat
  /-- the function object `std::hash<std::string>` -/
  hash_string : std_string → Nat
  /-- the function object `std::hash<void*>`, on an address -/
  hash_pointer : Nat → Nat
  /-- the function `hash_combine(hivalue, lovalue)` -/
  hash_combine : Nat → Nat → Nat

/-- The cast `(int)_type`: the enumerators count from zero in declaration order. -/
def any.anyTypeId.toInt : any.anyTypeId → Int
  | any.anyTypeId.undefined => 0
  | any.anyTypeId.boolean => 1
  | any.anyTypeId.number => 2
  | any.anyTypeId.string => 3
  | any.anyTypeId.function => 4
  | any.anyTypeId.array => 5
  | any.anyTypeId.object => 6

/-- The conversion of a `std::size_t` to a 32-bit `int`: the low 32 bits, read as a
two's complement number. -/
def int_of_size_t (n : Nat) : Int :=
  if n % 4294967296 < 2147483648 then ((n % 4294967296 : Nat) : Int)
  else ((n % 4294967296 : Nat) : Int) - 4294967296

/-- The secondary hash `h2` that the switch of `any::hash` computes. -/
def any.hash2 (H : Hashers) (h : Heap) (self : any) : Outcome Nat :=
  match self._type with
  | any.anyTypeId.undefined => Outcome.ok 0
  | any.anyTypeId.boolean =>
    match self._value with
    | any.anyType._boolean b => Outcome.ok (H.hash_bool b._value)
    | _ => Outcome.undefinedBehavior
  | any.anyTypeId.number =>
    match self._value with
    | any.anyType._number n => Outcome.ok (H.hash_double n._value)
    | _ => Outcome.undefinedBehavior
  | any.anyTypeId.string =>
    match any.anyType.asString h self._value with
    | some s => Outcome.ok (H.hash_string s._value)
    | none => Outcome.undefinedBehavior
  | any.anyTypeId.object =>
    match self._value with
    | any.anyType._data p => Outcome.ok (H.hash_pointer p)
    | _ => Outcome.undefinedBehavior
  | _ => Outcome.ok 0

/-- The member `int hash(void) const noexcept`: `hash_combine(h1, h2)`, converted to
the return type `int`. -/
def any.hash (H : Hashers) (h : Heap) (self : any) : Outcome Int :=
  match any.hash2 H h self with
  | Outcome.ok h2 =>
    Outcome.ok (int_of_size_t (H.hash_combine (H.hash_int self._type.toInt) h2))
  | Outcome.thrown what => Outcome.thrown what
  | Outcome.undefinedBehavior => Outcome.undefinedBehavior

/-- The specialisation `std::hash<js::any>::operator()`: `value.hash()`, converted to
the result type `std::size_t`. -/
def std_hash (H : Hashers) (h : Heap) (value : any) : Outcome Nat :=
  match any.hash H h value with
  | Outcome.ok r => Outcome.ok (size_t_of_int r)
  | Outcome.thrown what => Outcome.thrown what
  | Outcome.undefinedBehavior => Outcome.undefinedBehavior

/-! ## The indexing of a mapping -/

/-- Modelled from the spec: the constructor `object (std::initializer_list<pair> values)`,
which `core.h` declares and does not define.  The spec: construct from a literal list
of (string, dynamic value) pairs, of arbitrary keys and values.  With two entries
under one key the first is the one found, as in a `std::unordered_map`. -/
def object.ofList (values : List (std_string × any)) : js.object :=
  { undefined_t.ctor with _values := values }

/-- Modelled from the spec: the member `any& operator[] (std::string s)` of `object`,
which `core.h` declares and does not define, as a read.  The spec: a missing key, when
read, must yield the absence marker (not an error). -/
def object.index (self : js.object) (s : std_string) : any :=
  match unordered_map.find self._values s with
  | some value => value
  | none => any.ofUndefined undefined

/-- Modelled from the spec: the member `any& operator[] (const char* s)` of `object`,
which `core.h` declares and does not define, as a read: indexing by C-style text. -/
def object.indexCStr (self : js.object) (s : List Byte) : any :=
  object.index self (std_string_of_c_str s)

/-! ## The operations on an existing value, as steps -/

/-- Apply `f` to the value of a normal return. -/
def Outcome.map {α β : Type} (f : α → β) : Outcome α → Outcome β
  | Outcome.ok value => Outcome.ok (f value)
  | Outcome.thrown what => Outcome.thrown what
  | Outcome.undefinedBehavior => Outcome.undefinedBehavior

/-- The operations of `any` on existing values. -/
inductive Operation where
  | eq
  | add
  | sub
  | mul
  | div
  | typeOf
  | Delete (field : List Byte)
  | hash
  | toBool
  | toString
  | display

/-- What an operation returns. -/
inductive Returned where
  | bool (b : Bool)
  | any (v : js.any)
  | string (s : js.string)
  | int (n : Int)
  | text (t : std_string)
  | void

/-- The objects an operation can reach: its receiver (or first operand), its other
operand, and the heap. -/
structure Machine where
  /-- receiver, or first operand -/
  self : any
  /-- second operand of a binary operator -/
  other : any
  /-- allocations -/
  heap : Heap

/-! Each operator once more, as a step on the machine: the body of the source with the
machine threaded through it, so that every `return` and every `throw` hands on the
objects as the statements before it left them. -/

namespace Step

/-- The friend `operator ==` as a step, on `value = m.self` and `other = m.other`.  Both
are `const` references; no statement of the body assigns. -/
def eq (m : Machine) : Outcome Bool × Machine :=
  if m.self._type ≠ m.other._type then (Outcome.ok false, m)
  else
    match m.self._type with
    | any.anyTypeId.undefined => (Outcome.ok true, m)
    | any.anyTypeId.boolean =>
      match m.self._value, m.other._value with
      | any.anyType._boolean a, any.anyType._boolean b => (Outcome.ok (a._value == b._value), m)
      | _, _ => (Outcome.undefinedBehavior, m)
    | any.anyTypeId.number =>
      match m.self._value, m.other._value with
      | any.anyType._number a, any.anyType._number b =>
        (Outcome.ok (Double.eq a._value b._value), m)
      | _, _ => (Outcome.undefinedBehavior, m)
    | any.anyTypeId.string =>
      match any.anyType.asString m.heap m.self._value,
        any.anyType.asString m.heap m.other._value with
      | some a, some b =>
        match strcmp (c_str a._value) (c_str b._value) with
        | some r => (Outcome.ok (r == 0), m)
        | none => (Outcome.undefinedBehavior, m)
      | _, _ => (Outcome.undefinedBehavior, m)
    | any.anyTypeId.object =>
      match m.self._value, m.other._value with
      | any.anyType._data p, any.anyType._data q => (Outcome.ok (p == q), m)
      | _, _ => (Outcome.undefinedBehavior, m)
    | _ => (Outcome.thrown "not implemented", m)

/-- The shape shared by `operator +`, `-`, `*` and `/` as a step, on `*this = m.self`
and `t = m.other`: the result is a new `any`, built from copies of the two
numbers. -/
def arith (op : number → number → number) (m : Machine) : Outcome any × Machine :=
  match m.self._type with
  | any.anyTypeId.number =>
    match m.other._type with
    | any.anyTypeId.number =>
      match m.self._value, m.other._value with
      | any.anyType._number a, any.anyType._number b => (Outcome.ok (any.ofNumber (op a b)), m)
      | _, _ => (Outcome.undefinedBehavior, m)
    | _ => (Outcome.thrown "not implemented", m)
  | _ => (Outcome.thrown "not implemented", m)

/-- The member `typeOf` as a step, on `*this = m.self`. -/
def typeOf (m : Machine) : js.string × Machine :=
  match m.self._type with
  | any.anyTypeId.undefined => (string.ofCStr (c_str (literal "undefined")), m)
  | any.anyTypeId.boolean => (string.ofCStr (c_str (literal "boolean")), m)
  | any.anyTypeId.number => (string.ofCStr (c_str (literal "number")), m)
  | any.anyTypeId.string => (string.ofCStr (c_str (literal "string")), m)
  | any.anyTypeId.array => (string.ofCStr (c_str (literal "array")), m)
  | any.anyTypeId.object => (string.ofCStr (c_str (literal "object")), m)
  | _ => (string.ofCStr (c_str (literal "error")), m)

/-- The member `Delete` as a step, on `*this = m.self`: the one operation with a
statement that writes, `_values.erase(field)` on the mapping that `_data` points to. -/
def Delete (field : List Byte) (m : Machine) : Outcome Unit × Machine :=
  match m.self._type with
  | any.anyTypeId.object =>
    match m.self._value with
    | any.anyType._data p =>
      match m.heap.deref p with
      | some (Cell.object o) =>
        (Outcome.ok (),
          { m with heap := m.heap.store p (Cell.object
              { o with _values := unordered_map.erase o._values (std_string_of_c_str field) }) })
      | _ => (Outcome.undefinedBehavior, m)
    | _ => (Outcome.undefinedBehavior, m)
  | _ => (Outcome.thrown "wrong type", m)

/-- The member `hash` as a step, on `*this = m.self`; the member is `const`. -/
def hash (H : Hashers) (m : Machine) : Outcome Int × Machine :=
  match m.self._type with
  | any.anyTypeId.undefined =>
    (Outcome.ok (int_of_size_t (H.hash_combine (H.hash_int m.self._type.toInt) 0)), m)
  | any.anyTypeId.boolean =>
    match m.self._value with
    | any.anyType._boolean b =>
      (Outcome.ok (int_of_size_t
        (H.hash_combine (H.hash_int m.self._type.toInt) (H.hash_bool b._value))), m)
    | _ => (Outcome.undefinedBehavior, m)
  | any.anyTypeId.number =>
    match m.self._value with
    | any.anyType._number n =>
      (Outcome.ok (int_of_size_t
        (H.hash_combine (H.hash_int m.self._type.toInt) (H.hash_double n._value))), m)
    | _ => (Outcome.undefinedBehavior, m)
  | any.anyTypeId.string =>
    match any.anyType.asString m.heap m.self._value with
    | some s =>
      (Outcome.ok (int_of_size_t
        (H.hash_combine (H.hash_int m.self._type.toInt) (H.hash_string s._value))), m)
    | none => (Outcome.undefinedBehavior, m)
  | any.anyTypeId.object =>
    match m.self._value with
    | any.anyType._data p =>
      (Outcome.ok (int_of_size_t
        (H.hash_combine (H.hash_int m.self._type.toInt) (H.hash_pointer p))), m)
    | _ => (Outcome.undefinedBehavior, m)
  | _ => (Outcome.ok (int_of_size_t (H.hash_combine (H.hash_int m.self._type.toInt) 0)), m)

/-- The conversion `operator bool()` as a step, on `*this = m.self`. -/
def toBool (m : Machine) : Bool × Machine :=
  (m.self._type != any.anyTypeId.undefined, m)

/-- The conversion `operator string()` as a step, on `*this = m.self`: the result is a
copy of the string pointed to. -/
def toString (m : Machine) : Outcome js.string × Machine :=
  if m.self._type = any.anyTypeId.string then
    match any.anyType.asString m.heap m.self._value with
    | some s => (Outcome.ok s, m)
    | none => (Outcome.undefinedBehavior, m)
  else (Outcome.thrown "wrong type", m)

/-- The friend `operator <<` as a step.  The parameter `val` is a copy of `m.self`,
and the text goes to the stream. -/
def display (format : Double → std_string) (m : Machine) : Outcome std_string × Machine :=
  if m.self._type = any.anyTypeId.undefined then
    (Outcome.ok (std_string_of_c_str (c_str (literal "undefined"))), m)
  else if m.self._type = any.anyTypeId.boolean then
    match m.self._value with
    | any.anyType._boolean b => (Outcome.ok (boolean.display b), m)
    | _ => (Outcome.undefinedBehavior, m)
  else if m.self._type = any.anyTypeId.number then
    match m.self._value with
    | any.anyType._number n => (Outcome.ok (number.display format n), m)
    | _ => (Outcome.undefinedBehavior, m)
  else if m.self._type = any.anyTypeId.string then
    match any.anyType.asString m.heap m.self._value with
    | some s => (Outcome.ok (string.display s), m)
    | none => (Outcome.undefinedBehavior, m)
  else if m.self._type = any.anyTypeId.function then
    (Outcome.ok (std_string_of_c_str (c_str (literal "[function]"))), m)
  else if m.self._type = any.anyTypeId.array then
    (Outcome.ok (std_string_of_c_str (c_str (literal "[array]"))), m)
  else if m.self._type = any.anyTypeId.object then
    (Outcome.ok (std_string_of_c_str (c_str (literal "[object]"))), m)
  else (Outcome.ok (std_string_of_c_str (c_str (literal "[any]"))), m)

end Step

/-- One operation as a step: what it returns or throws, and the objects afterwards. -/
def Operation.run (H : Hashers) (format : Double → std_string) :
    Operation → Machine → Outcome Returned × Machine
  | Operation.eq, m => (Outcome.map Returned.bool (Step.eq m).1, (Step.eq m).2)
  | Operation.add, m =>
    (Outcome.map Returned.any (Step.arith number.add m).1, (Step.arith number.add m).2)
  | Operation.sub, m =>
    (Outcome.map Returned.any (Step.arith number.sub m).1, (Step.arith number.sub m).2)
  | Operation.mul, m =>
    (Outcome.map Returned.any (Step.arith number.mul m).1, (Step.arith number.mul m).2)
  | Operation.div, m =>
    (Outcome.map Returned.any (Step.arith number.div m).1, (Step.arith number.div m).2)
  | Operation.typeOf, m => (Outcome.ok (Returned.string (Step.typeOf m).1), (Step.typeOf m).2)
  | Operation.Delete field, m =>
    (Outcome.map (fun _ => Returned.void) (Step.Delete field m).1, (Step.Delete field m).2)
  | Operation.hash, m => (Outcome.map Returned.int (Step.hash H m).1, (Step.hash H m).2)
  | Operation.toBool, m => (Outcome.ok (Returned.bool (Step.toBool m).1), (Step.toBool m).2)
  | Operation.toString, m =>
    (Outcome.map Returned.string (Step.toString m).1, (Step.toString m).2)
  | Operation.display, m =>
    (Outcome.map Returned.text (Step.display format m).1, (Step.display format m).2)

/-- What each operation returns or throws, by the operators defined above. -/
def Operation.result (H : Hashers) (format : Double → std_string) :
    Operation → Machine → Outcome Returned
  | Operation.eq, m => Outcome.map Returned.bool (any.eq m.heap m.self m.other)
  | Operation.add, m => Outcome.map Returned.any (any.add m.self m.other)
  | Operation.sub, m => Outcome.map Returned.any (any.sub m.self m.other)
  | Operation.mul, m => Outcome.map Returned.any (any.mul m.self m.other)
  | Operation.div, m => Outcome.map Returned.any (any.div m.self m.other)
  | Operation.typeOf, m => Outcome.ok (Returned.string (any.typeOf m.self))
  | Operation.Delete field, m =>
    Outcome.map (fun _ => Returned.void) (any.Delete m.self field m.heap).1
  | Operation.hash, m => Outcome.map Returned.int (any.hash H m.heap m.self)
  | Operation.toBool, m => Outcome.ok (Returned.bool (any.toBool m.self))
  | Operation.toString, m => Outcome.map Returned.string (any.toString m.heap m.self)
  | Operation.display, m => Outcome.map Returned.text (any.display format m.heap m.self)

/-- The integers from -6 to 6, on which the arithmetic is checked case by case. -/
def smallIntegers : List Int := [-6, -5, -4, -3, -2, -1, 0, 1, 2, 3, 4, 5, 6]

/-- The mapping literal `{"hours": 3, "minutes": 42}`. -/
def hoursAndMinutes : js.object :=
  object.ofList [(literal "hours", any.ofIntegral 3), (literal "minutes", any.ofIntegral 42)]

/-- The typed sequence literal `[1, 2, 3]` of dynamic values. -/
def oneTwoThree : ReadOnlyArray any :=
  ReadOnlyArray.ofList [any.ofIntegral 1, any.ofIntegral 2, any.ofIntegral 3]

/-- An instance of the hash functions, to evaluate `any::hash` on: the identity on
`int`, 0 and 1 on `bool`, the fraction field on `double`, the length on strings, the
address itself on pointers, and `hivalue * 31 + lovalue` for `hash_combine`. -/
def sampleHashers : Hashers :=
  { hash_int := size_t_of_int
    hash_bool := fun b => if b then 1 else 0
    hash_double := fun d => d.frac.val
    hash_string := fun s => s.length
    hash_pointer := fun p => p
    hash_combine := fun hivalue lovalue => (hivalue * 31 + lovalue) % 18446744073709551616 }

/-- A formatting of `double`, to evaluate display on: the empty text. -/
def sampleFormat : Double → std_string := fun _ => []

/-- The value of `any(0) * any(-1)`: the number minus zero. -/
def minusZero : any :=
  any.ofNumber (number.mul (number.ofIntegral 0) (number.ofIntegral (-1)))

/-- An instance of the hash functions that hashes every bit of its argument: for a
`double`, 0 for both zeros and the bit pattern otherwise, so that doubles equal under
`==` hash alike as the standard requires of `std::hash`; every byte of a string; the
address of a pointer; the identity on `int`, 0 and 1 on `bool`, and
`hivalue * 31 + lovalue` for `hash_combine`. -/
def bytewiseHashers : Hashers :=
  { hash_int := size_t_of_int
    hash_bool := fun b => if b then 1 else 0
    hash_double := fun d =>
      if d.isZero then 0
      else (if d.sign then 9223372036854775808 else 0) + d.expo.val * 4503599627370496
        + d.frac.val
    hash_string := fun s => s.foldl (fun acc c => (acc * 31 + c.val) % 18446744073709551616) 0
    hash_pointer := fun p => p
    hash_combine := fun hivalue lovalue => (hivalue * 31 + lovalue) % 18446744073709551616 }

open any

/-! ## Strings and `strcmp` -/

theorem strcmp_c_str_self (s : std_string) : strcmp (c_str s) (c_str s) = some 0 := by
  induction s with
  | nil => decide
  | cons a as ih =>
    have h : strcmp (c_str (a :: as)) (c_str (a :: as))
        = if a.val = 0 then some 0 else strcmp (c_str as) (c_str as) := by
      simp [c_str, strcmp]
    rw [h, ih]; simp

/-- On two `c_str()` buffers `strcmp` returns, and returns zero exactly when the two
contents agree up to their first zero byte. -/
theorem strcmp_c_str (a b : std_string) :
    ∃ r, strcmp (c_str a) (c_str b) = some r ∧
      (r = 0 ↔ std_string_of_c_str a = std_string_of_c_str b) := by
  induction a generalizing b with
  | nil =>
    cases b with
    | nil => exact ⟨0, by decide, by simp⟩
    | cons y ys =>
      by_cases hy : y = 0
      · subst hy
        exact ⟨0, by simp [c_str, strcmp], by simp [std_string_of_c_str]⟩
      · refine ⟨(0 : Int) - (y.val : Int), ?_, ?_⟩
        · have : (0 : Byte) ≠ y := fun h => hy h.symm
          simp [c_str, strcmp, this]
        · have hv : y.val ≠ 0 := fun h => hy (Fin.ext h)
          simp [std_string_of_c_str, hy]
          omega
  | cons x xs ih =>
    cases b with
    | nil =>
      by_cases hx : x = 0
      · subst hx
        exact ⟨0, by simp [c_str, strcmp], by simp [std_string_of_c_str]⟩
      · refine ⟨(x.val : Int) - 0, ?_, ?_⟩
        · simp [c_str, strcmp, hx]
        · have hv : x.val ≠ 0 := fun h => hx (Fin.ext h)
          simp [std_string_of_c_str, hx]
          omega
    | cons y ys =>
      by_cases hxy : x = y
      · subst hxy
        by_cases hx : x = 0
        · subst hx
          exact ⟨0, by simp [c_str, strcmp], by simp [std_string_of_c_str]⟩
        · obtain ⟨r, hr, hiff⟩ := ih ys
          have hv : x.val ≠ 0 := fun h => hx (Fin.ext h)
          refine ⟨r, ?_, ?_⟩
          · simpa [c_str, strcmp, hv] using hr
          · simpa [std_string_of_c_str, hx] using hiff
      · refine ⟨(x.val : Int) - (y.val : Int), ?_, ?_⟩
        · simp [c_str, strcmp, hxy]
        · have hv : x.val ≠ y.val := fun h => hxy (Fin.ext h)
          constructor
          · intro h; omega
          · intro h
            exfalso
            by_cases hx : x = 0 <;> by_cases hy : y = 0 <;>
              simp_all [std_string_of_c_str]

/-! ## The heap -/

theorem Heap.deref_alloc_new (h : Heap) (c : Cell) :
    (h.alloc c).2.deref (h.alloc c).1 = some c := by
  simp [Heap.alloc, Heap.deref]

theorem Heap.deref_alloc_old (h : Heap) (c : Cell) (p : Nat) (x : Cell)
    (hp : h.deref p = some x) : (h.alloc c).2.deref p = some x := by
  unfold Heap.deref at hp ⊢
  by_cases h0 : p = 0
  · simp [h0] at hp
  · simp only [h0, if_false] at hp ⊢
    have hlt : p - 1 < h.cells.length := by
      by_contra hge
      rw [List.get?_eq_none.mpr (by omega)] at hp
      cases hp
    simp only [Heap.alloc]
    rw [List.get?_eq_getElem?, List.getElem?_append_left hlt, ← List.get?_eq_getElem?]
    exact hp

theorem Heap.deref_store_same (h : Heap) (p : Nat) (c0 c : Cell)
    (hp : h.deref p = some c0) : (h.store p c).deref p = some c := by
  unfold Heap.deref at hp ⊢
  by_cases h0 : p = 0
  · simp [h0] at hp
  · simp only [h0, if_false] at hp ⊢
    have hlt : p - 1 < h.cells.length := by
      by_contra hge
      rw [List.get?_eq_none.mpr (by omega)] at hp
      cases hp
    simp [Heap.store, List.getElem?_set, hlt]

theorem Heap.deref_store_other (h : Heap) (p q : Nat) (c0 c : Cell)
    (hp : h.deref p = some c0) (hq : q ≠ p) : (h.store p c).deref q = h.deref q := by
  unfold Heap.deref at hp ⊢
  by_cases h0 : p = 0
  · simp [h0] at hp
  · by_cases hq0 : q = 0
    · simp [hq0]
    · have : p - 1 ≠ q - 1 := by omega
      simp [Heap.store, List.getElem?_set, hq0, this]

theorem Heap.store_same (h : Heap) (p : Nat) (c : Cell)
    (hp : h.deref p = some c) : h.store p c = h := by
  unfold Heap.deref at hp
  by_cases h0 : p = 0
  · simp [h0] at hp
  · simp only [h0, if_false] at hp
    obtain ⟨cells⟩ := h
    simp only [Heap.store, Heap.mk.injEq]
    apply List.ext_getElem?
    intro i
    simp only [List.getElem?_set]
    by_cases hi : p - 1 = i
    · subst hi
      simp only [List.get?_eq_getElem?] at hp
      simp [hp]
      exact (List.getElem?_eq_some_iff.mp hp).1
    · simp [hi]

/-! ## The entries of a mapping -/

theorem unordered_map.find_cons (e : std_string × any) (es : List (std_string × any))
    (k : std_string) :
    unordered_map.find (e :: es) k = if e.1 = k then some e.2 else unordered_map.find es k := by
  by_cases he : e.1 = k <;> simp [unordered_map.find, List.find?_cons, he]

theorem unordered_map.erase_cons (e : std_string × any) (es : List (std_string × any))
    (k : std_string) :
    unordered_map.erase (e :: es) k
      = if e.1 = k then unordered_map.erase es k else e :: unordered_map.erase es k := by
  by_cases he : e.1 = k <;> simp [unordered_map.erase, List.filter_cons, he]

theorem unordered_map.find_erase_self (m : List (std_string × any)) (k : std_string) :
    unordered_map.find (unordered_map.erase m k) k = none := by
  induction m with
  | nil => rfl
  | cons e es ih =>
    rw [unordered_map.erase_cons]
    by_cases he : e.1 = k
    · rw [if_pos he]; exact ih
    · rw [if_neg he, unordered_map.find_cons, if_neg he]; exact ih

theorem unordered_map.find_erase_of_ne (m : List (std_string × any)) (k k2 : std_string)
    (hne : k2 ≠ k) :
    unordered_map.find (unordered_map.erase m k) k2 = unordered_map.find m k2 := by
  induction m with
  | nil => rfl
  | cons e es ih =>
    rw [unordered_map.erase_cons, unordered_map.find_cons]
    by_cases he : e.1 = k
    · have h2 : ¬ e.1 = k2 := fun h => hne (h.symm.trans he)
      rw [if_pos he, if_neg h2]; exact ih
    · rw [if_neg he, unordered_map.find_cons]
      by_cases h2 : e.1 = k2
      · rw [if_pos h2, if_pos h2]
      · rw [if_neg h2, if_neg h2]; exact ih

theorem unordered_map.erase_of_find_none (m : List (std_string × any)) (k : std_string)
    (hnone : unordered_map.find m k = none) : unordered_map.erase m k = m := by
  induction m with
  | nil => rfl
  | cons e es ih =>
    rw [unordered_map.find_cons] at hnone
    by_cases he : e.1 = k
    · rw [if_pos he] at hnone; cases hnone
    · rw [if_neg he] at hnone
      rw [unordered_map.erase_cons, if_neg he, ih hnone]

/-! ## Equality -/

theorem Double.eq_same (a : Double) : Double.eq a a = !a.isNaN := by
  simp [Double.eq]

theorem any.asString_of_valid (h : Heap) (v : any) (hk : v._type = anyTypeId.string)
    (hv : any.valid h v = true) : ∃ s, anyType.asString h v._value = some s := by
  obtain ⟨t, val⟩ := v
  simp only at hk
  subst hk
  simp only [any.valid] at hv
  exact Option.isSome_iff_exists.mp hv

theorem any.valid_alloc (h : Heap) (c : Cell) (v : any) (hv : any.valid h v = true) :
    any.valid (h.alloc c).2 v = true := by
  obtain ⟨ty, val⟩ := v
  cases ty <;> cases val <;> simp [any.valid, anyType.asString, anyType.asArray,
    anyType.asObject] at hv ⊢
  all_goals
    rename_i p
    cases hd : h.deref p with
    | none => simp [hd] at hv
    | some x =>
      rw [Heap.deref_alloc_old h c p x hd]
      simpa [hd] using hv

/-- Which values have tag and payload in agreement. -/
theorem any.valid_of_constructor (h : Heap) :
    any.valid h any.ctor = true ∧
    (∀ undef : undefined_t, any.valid h (any.ofUndefined undef) = true) ∧
    (∀ n : Int, any.valid h (any.ofIntegral n) = true) ∧
    (∀ b : Bool, any.valid h (any.ofBool b) = true) ∧
    (∀ n : number, any.valid h (any.ofNumber n) = true) ∧
    (∀ s : js.string, any.valid (ofString s h).2 (ofString s h).1 = true) ∧
    (∀ a : js.array, any.valid (ofArray a h).2 (ofArray a h).1 = true) ∧
    (∀ o : js.object, any.valid (ofObject o h).2 (ofObject o h).1 = true) ∧
    (∀ (op : number → number → number) (x y r : any),
      any.arith op x y = Outcome.ok r → any.valid h r = true) ∧
    (∀ (c : Cell) (v : any), any.valid h v = true → any.valid (h.alloc c).2 v = true) ∧
    (∀ b : boolean, any.valid h (any.ofBoolean b) = false) := by
  refine ⟨rfl, fun _ => rfl, fun _ => rfl, fun _ => rfl, fun _ => rfl, ?_, ?_, ?_, ?_,
    fun c v hv => any.valid_alloc h c v hv, fun _ => rfl⟩
  · intro s
    simp [any.valid, ofString, anyType.asString, Heap.deref_alloc_new]
  · intro a
    simp [any.valid, ofArray, anyType.asArray, Heap.deref_alloc_new]
  · intro o
    simp [any.valid, ofObject, anyType.asObject, Heap.deref_alloc_new]
  · intro op x y r hr
    obtain ⟨tx, vx⟩ := x
    obtain ⟨ty, vy⟩ := y
    cases tx <;> cases ty <;> cases vx <;> cases vy <;> simp [any.arith] at hr
    subst hr
    rfl

/-- C1 (amended): for every dynamic value `v` whose kind is absent, boolean, number, string
or mapping and whose union holds the member of its kind, `v == v` returns normally;
it returns `true` unless `v` is a number whose payload is NaN, and `false` for a NaN
payload.  The union holds the member of its kind in every value built by `any()`,
`any(undefined)`, `any(integral)`, `any(bool)`, `any(js::number)`, `any(js::string)`,
`any(js::object)` or an arithmetic operator, and not in a value built by
`any(js::boolean)`. -/
theorem eq_reflexive_unless_nan (h : Heap) (v : any) (hv : any.valid h v = true)
    (hk : v._type = anyTypeId.undefined ∨ v._type = anyTypeId.boolean ∨
      v._type = anyTypeId.number ∨ v._type = anyTypeId.string ∨ v._type = anyTypeId.object) :
    any.eq h v v = Outcome.ok (!v.holdsNaN) ∧
    any.valid h any.ctor = true ∧
    (∀ undef : undefined_t, any.valid h (any.ofUndefined undef) = true) ∧
    (∀ n : Int, any.valid h (any.ofIntegral n) = true) ∧
    (∀ b : Bool, any.valid h (any.ofBool b) = true) ∧
    (∀ n : number, any.valid h (any.ofNumber n) = true) ∧
    (∀ s : js.string, any.valid (ofString s h).2 (ofString s h).1 = true) ∧
    (∀ o : js.object, any.valid (ofObject o h).2 (ofObject o h).1 = true) ∧
    (∀ (op : number → number → number) (x y r : any),
      any.arith op x y = Outcome.ok r → any.valid h r = true) ∧
    (∀ b : boolean, any.valid h (any.ofBoolean b) = false) := by
  have hc := any.valid_of_constructor h
  refine ⟨?_, hc.1, hc.2.1, hc.2.2.1, hc.2.2.2.1, hc.2.2.2.2.1, hc.2.2.2.2.2.1,
    hc.2.2.2.2.2.2.2.1, hc.2.2.2.2.2.2.2.2.1, hc.2.2.2.2.2.2.2.2.2.2⟩
  obtain ⟨t, val⟩ := v
  cases t
  case undefined => simp [any.eq, any.holdsNaN]
  case boolean =>
    cases val <;> simp [any.valid] at hv
    simp [any.eq, any.holdsNaN]
  case number =>
    cases val <;> simp [any.valid] at hv
    simp [any.eq, any.holdsNaN, Double.eq_same]
  case string =>
    obtain ⟨s, hs⟩ := any.asString_of_valid h ⟨anyTypeId.string, val⟩ rfl hv
    simp only at hs
    simp [any.eq, any.holdsNaN, hs, strcmp_c_str_self]
  case object =>
    cases val <;> simp [any.valid, anyType.asObject] at hv
    simp [any.eq, any.holdsNaN]
  case function => simp at hk
  case array => simp at hk

/-- C1, witness: the string `"hi"` at address 1 equals itself. -/
theorem eq_reflexive_unless_nan_witness :
    any.valid heapWithString ⟨anyTypeId.string, anyType._data 1⟩ = true ∧
      any.eq heapWithString ⟨anyTypeId.string, anyType._data 1⟩
        ⟨anyTypeId.string, anyType._data 1⟩ = Outcome.ok true :=
  ⟨by decide,
    (eq_reflexive_unless_nan heapWithString ⟨anyTypeId.string, anyType._data 1⟩
      (by decide) (by decide)).1⟩

/-- C1, counterexample: `any(0) / any(0)` returns a number-kind value, the NaN
`zeroOverZero`, and `zeroOverZero == zeroOverZero` returns `false`. -/
theorem eq_not_reflexive_on_nan :
    any.div (any.ofIntegral 0) (any.ofIntegral 0) = Outcome.ok zeroOverZero ∧
      zeroOverZero._type = anyTypeId.number ∧
      any.valid { cells := [] } zeroOverZero = true ∧
      any.eq { cells := [] } zeroOverZero zeroOverZero = Outcome.ok false := by
  decide

/-- Two string-kind values built one after the other from `s1` and `s2` compare equal
exactly when `s1` and `s2` agree up to their first zero byte. -/
theorem any.eq_ofString (h : Heap) (s1 s2 : js.string) :
    any.eq (ofString s2 (ofString s1 h).2).2 (ofString s1 h).1 (ofString s2 (ofString s1 h).2).1
      = Outcome.ok (decide (std_string_of_c_str s1._value = std_string_of_c_str s2._value)) := by
  have h1 : anyType.asString (ofString s2 (ofString s1 h).2).2 (ofString s1 h).1._value
      = some s1 := by
    simp only [ofString, anyType.asString]
    rw [Heap.deref_alloc_old _ _ _ _ (Heap.deref_alloc_new h (Cell.string s1))]
  have h2 : anyType.asString (ofString s2 (ofString s1 h).2).2
      (ofString s2 (ofString s1 h).2).1._value = some s2 := by
    simp only [ofString, anyType.asString]
    rw [Heap.deref_alloc_new]
  obtain ⟨r, hr, hiff⟩ := strcmp_c_str s1._value s2._value
  have ht1 : (ofString s1 h).1._type = anyTypeId.string := rfl
  have ht2 : (ofString s2 (ofString s1 h).2).1._type = anyTypeId.string := rfl
  simp only [any.eq, ht1, ht2, h1, h2, hr]
  simp only [ne_eq, not_true_eq_false, if_false, Outcome.ok.injEq]
  exact Bool.eq_iff_iff.mpr (by simp [hiff])

/-- C2, the code at the failing input: the strings with the bytes `a 0 b` and `a 0 c`
differ in their third byte, and the dynamic values built from them compare equal. -/
theorem eq_string_stops_at_zero_byte :
    any.eq
      (ofString (string.ofStdString [97, 0, 99])
        (ofString (string.ofStdString [97, 0, 98]) { cells := [] }).2).2
      (ofString (string.ofStdString [97, 0, 98]) { cells := [] }).1
      (ofString (string.ofStdString [97, 0, 99])
        (ofString (string.ofStdString [97, 0, 98]) { cells := [] }).2).1
      = Outcome.ok true ∧
    (string.ofStdString [97, 0, 98])._value ≠ (string.ofStdString [97, 0, 99])._value := by
  decide

/-- C3: two mapping-kind values compare equal exactly when their pointers are the same
address, whatever the heap holds; and a value built from a mapping `m1` never equals a
value built later from a mapping `m2`, in either order, also when `m1 = m2`. -/
theorem eq_mapping_by_identity (h : Heap) :
    (∀ (a b : any) (p q : Nat), a._type = anyTypeId.object → b._type = anyTypeId.object →
        a._value = anyType._data p → b._value = anyType._data q →
        any.eq h a b = Outcome.ok (decide (p = q))) ∧
    (∀ (h1 h2 : Heap) (m1 m2 : js.object),
        (ofObject m1 h1).2.cells.length ≤ h2.cells.length →
        any.eq h (ofObject m1 h1).1 (ofObject m2 h2).1 = Outcome.ok false ∧
        any.eq h (ofObject m2 h2).1 (ofObject m1 h1).1 = Outcome.ok false) := by
  constructor
  · intro a b p q ha hb hp hq
    obtain ⟨ta, va⟩ := a
    obtain ⟨tb, vb⟩ := b
    simp only at ha hb hp hq
    subst ha hb hp hq
    simp only [any.eq, ne_eq, not_true_eq_false, if_false, Outcome.ok.injEq]
    exact Bool.eq_iff_iff.mpr (by simp)
  · intro h1 h2 m1 m2 hle
    simp only [ofObject, Heap.alloc, List.length_append, List.length_singleton] at hle
    constructor
    · simp only [any.eq, ofObject, Heap.alloc, ne_eq, not_true_eq_false, if_false,
        Outcome.ok.injEq]
      exact beq_eq_false_iff_ne.mpr (by omega)
    · simp only [any.eq, ofObject, Heap.alloc, ne_eq, not_true_eq_false, if_false,
        Outcome.ok.injEq]
      exact beq_eq_false_iff_ne.mpr (by omega)

/-- C3, witness: a mapping-kind value equals itself, and two values built one after
the other from the same empty mapping are unequal. -/
theorem eq_mapping_by_identity_witness :
    any.eq heapWithContainers ⟨anyTypeId.object, anyType._data 2⟩
        ⟨anyTypeId.object, anyType._data 2⟩ = Outcome.ok (decide (2 = 2)) ∧
      any.eq heapWithContainers
        (ofObject { undefined_t.ctor with _values := [] } { cells := [] }).1
        (ofObject { undefined_t.ctor with _values := [] }
          (ofObject { undefined_t.ctor with _values := [] } { cells := [] }).2).1
        = Outcome.ok false :=
  ⟨(eq_mapping_by_identity heapWithContainers).1 _ _ 2 2 rfl rfl rfl rfl,
    ((eq_mapping_by_identity heapWithContainers).2 { cells := [] }
      (ofObject { undefined_t.ctor with _values := [] } { cells := [] }).2
      { undefined_t.ctor with _values := [] } { undefined_t.ctor with _values := [] }
      (by decide)).1⟩

/-- C4: when the kinds of `a` and `b` differ, `a == b` returns `false`. -/
theorem eq_false_across_kinds (h : Heap) (a b : any) (hne : a._type ≠ b._type) :
    any.eq h a b = Outcome.ok false := by
  simp [any.eq, hne]

/-- C4, witness: a sequence against a callable. -/
theorem eq_false_across_kinds_witness :
    (⟨anyTypeId.array, anyType._data 1⟩ : any)._type ≠ callableValue._type ∧
      any.eq heapWithContainers ⟨anyTypeId.array, anyType._data 1⟩ callableValue
        = Outcome.ok false :=
  ⟨by decide,
    eq_false_across_kinds heapWithContainers ⟨anyTypeId.array, anyType._data 1⟩ callableValue
      (by decide)⟩

/-- C5: when `a` and `b` are both of sequence kind, or both of callable kind, `a == b`
throws `"not implemented"`. -/
theorem eq_unsupported_for_sequence_and_callable (h : Heap) (a b : any)
    (hk : (a._type = anyTypeId.array ∧ b._type = anyTypeId.array) ∨
      (a._type = anyTypeId.function ∧ b._type = anyTypeId.function)) :
    any.eq h a b = Outcome.thrown "not implemented" := by
  obtain ⟨ta, va⟩ := a
  obtain ⟨tb, vb⟩ := b
  rcases hk with ⟨ha, hb⟩ | ⟨ha, hb⟩ <;> simp only at ha hb <;> subst ha hb <;> simp [any.eq]

/-- C5, witness: a sequence compared with itself. -/
theorem eq_unsupported_for_sequence_and_callable_witness :
    any.eq heapWithContainers ⟨anyTypeId.array, anyType._data 1⟩
      ⟨anyTypeId.array, anyType._data 1⟩ = Outcome.thrown "not implemented" :=
  eq_unsupported_for_sequence_and_callable heapWithContainers
    ⟨anyTypeId.array, anyType._data 1⟩ ⟨anyTypeId.array, anyType._data 1⟩
    (Or.inl ⟨rfl, rfl⟩)

/-! ## Arithmetic -/

theorem Double.propagate_first (a b : Double) (ha : a.isNaN = true) :
    Double.add a b = Double.quiet a ∧ Double.sub a b = Double.quiet a ∧
    Double.mul a b = Double.quiet a ∧ Double.div a b = Double.quiet a := by
  simp [Double.add, Double.sub, Double.mul, Double.div, Double.propagate, ha]

theorem Double.propagate_second (a b : Double) (ha : a.isNaN = false) (hb : b.isNaN = true) :
    Double.add a b = Double.quiet b ∧ Double.sub a b = Double.quiet b ∧
    Double.mul a b = Double.quiet b ∧ Double.div a b = Double.quiet b := by
  simp [Double.add, Double.sub, Double.mul, Double.div, Double.propagate, ha, hb]

set_option maxRecDepth 100000

set_option maxHeartbeats 4000000

set_option exponentiation.threshold 2048

/-- C6: for number-kind `x` and `y` with payloads `a` and `b`, each of `x + y`, `x - y`,
`x * y` and `x / y` returns a number-kind value whose payload is the result of the
operator of `number` on `a` and `b`: the double result of the operator on the two
`_value` fields, with the absence flag cleared.  The double results are those of
IEEE 754 arithmetic: exact on the integers from -6 to 6 (sums, differences, products,
and quotients that are integers); rounded to nearest, ties to even, where the exact
result is no double (`2^53 + 1`, `94906267^2`, `0.1 + 0.2`, `1/3`, `2/3`, `1/10`);
signed zeros, infinities on division by zero and on overflow, zero on underflow, the
default NaN for `0/0` and `inf - inf`; and a NaN operand comes back quiet: the one
that is NaN if one is, the first for `-` and `/` if both are, and one of the two for
`+` and `*` if both are.  `any(number(2)) + any(number(3))` is `any(number(5))`. -/
theorem arithmetic_on_numbers (x y : any) (a b : number)
    (hx : x._type = anyTypeId.number) (hxa : x._value = anyType._number a)
    (hy : y._type = anyTypeId.number) (hyb : y._value = anyType._number b) :
    (any.add x y = Outcome.ok ⟨anyTypeId.number, anyType._number (a.add b)⟩ ∧
      a.add b = ⟨⟨false⟩, Double.add a._value b._value⟩) ∧
    (any.sub x y = Outcome.ok ⟨anyTypeId.number, anyType._number (a.sub b)⟩ ∧
      a.sub b = ⟨⟨false⟩, Double.sub a._value b._value⟩) ∧
    (any.mul x y = Outcome.ok ⟨anyTypeId.number, anyType._number (a.mul b)⟩ ∧
      a.mul b = ⟨⟨false⟩, Double.mul a._value b._value⟩) ∧
    (any.div x y = Outcome.ok ⟨anyTypeId.number, anyType._number (a.div b)⟩ ∧
      a.div b = ⟨⟨false⟩, Double.div a._value b._value⟩) ∧
    any.add (any.ofNumber (number.ofIntegral 2)) (any.ofNumber (number.ofIntegral 3))
      = Outcome.ok (any.ofNumber (number.ofIntegral 5)) ∧
    -- exact on small integers
    (∀ m ∈ smallIntegers, ∀ n ∈ smallIntegers,
      any.add (any.ofIntegral m) (any.ofIntegral n) = Outcome.ok (any.ofIntegral (m + n)) ∧
      any.sub (any.ofIntegral m) (any.ofIntegral n) = Outcome.ok (any.ofIntegral (m - n)) ∧
      (m * n ≠ 0 →
        any.mul (any.ofIntegral m) (any.ofIntegral n) = Outcome.ok (any.ofIntegral (m * n)) ∧
        any.div (any.ofIntegral (m * n)) (any.ofIntegral n) = Outcome.ok (any.ofIntegral m))) ∧
    -- rounding to nearest, ties to even
    (any.add (any.ofIntegral 9007199254740992) (any.ofIntegral 1)
        = Outcome.ok (any.ofIntegral 9007199254740992) ∧
      any.add (any.ofIntegral 9007199254740992) (any.ofIntegral 3)
        = Outcome.ok (any.ofIntegral 9007199254740996) ∧
      any.sub (any.ofIntegral (-9007199254740992)) (any.ofIntegral 1)
        = Outcome.ok (any.ofIntegral (-9007199254740992)) ∧
      any.mul (any.ofIntegral 94906267) (any.ofIntegral 94906267)
        = Outcome.ok (any.ofIntegral 9007199515875288) ∧
      any.add (any.ofNumber (number.ofDouble ⟨false, 1019, 2702159776422298⟩))
          (any.ofNumber (number.ofDouble ⟨false, 1020, 2702159776422298⟩))
        = Outcome.ok (any.ofNumber (number.ofDouble ⟨false, 1021, 900719925474100⟩)) ∧
      any.div (any.ofIntegral 1) (any.ofIntegral 3)
        = Outcome.ok (any.ofNumber (number.ofDouble ⟨false, 1021, 1501199875790165⟩)) ∧
      any.div (any.ofIntegral 2) (any.ofIntegral 3)
        = Outcome.ok (any.ofNumber (number.ofDouble ⟨false, 1022, 1501199875790165⟩)) ∧
      any.div (any.ofIntegral 1) (any.ofIntegral 10)
        = Outcome.ok (any.ofNumber (number.ofDouble ⟨false, 1019, 2702159776422298⟩)) ∧
      any.div (any.ofIntegral (-7)) (any.ofIntegral 2)
        = Outcome.ok (any.ofNumber (number.ofDouble ⟨true, 1024, 3377699720527872⟩))) ∧
    -- zeros, infinities and the default NaN
    (any.mul (any.ofIntegral (-3)) (any.ofIntegral 0)
        = Outcome.ok (any.ofNumber (number.ofDouble (Double.zero true))) ∧
      any.div (any.ofIntegral 1) (any.ofIntegral 0)
        = Outcome.ok (any.ofNumber (number.ofDouble (Double.inf false))) ∧
      any.div (any.ofIntegral (-1)) (any.ofIntegral 0)
        = Outcome.ok (any.ofNumber (number.ofDouble (Double.inf true))) ∧
      any.div (any.ofIntegral 0) (any.ofIntegral 0)
        = Outcome.ok (any.ofNumber (number.ofDouble ⟨true, 2047, 2251799813685248⟩)) ∧
      any.sub (any.ofNumber (number.ofDouble (Double.inf false)))
          (any.ofNumber (number.ofDouble (Double.inf false)))
        = Outcome.ok (any.ofNumber (number.ofDouble ⟨true, 2047, 2251799813685248⟩)) ∧
      any.mul (any.ofNumber (number.ofDouble ⟨false, 2046, 4503599627370495⟩))
          (any.ofIntegral 2)
        = Outcome.ok (any.ofNumber (number.ofDouble (Double.inf false))) ∧
      any.div (any.ofNumber (number.ofDouble ⟨false, 0, 1⟩)) (any.ofIntegral 2)
        = Outcome.ok (any.ofIntegral 0) ∧
      any.div (any.ofNumber (number.ofDouble ⟨false, 0, 3⟩)) (any.ofIntegral 2)
        = Outcome.ok (any.ofNumber (number.ofDouble ⟨false, 0, 2⟩))) ∧
    -- a NaN operand comes back quiet
    (any.add (any.ofNumber (number.ofDouble ⟨false, 2047, 2251799813685248⟩))
          (any.ofIntegral 1)
        = Outcome.ok (any.ofNumber (number.ofDouble ⟨false, 2047, 2251799813685248⟩)) ∧
      any.sub (any.ofIntegral 1)
          (any.ofNumber (number.ofDouble ⟨false, 2047, 2251799813685248⟩))
        = Outcome.ok (any.ofNumber (number.ofDouble ⟨false, 2047, 2251799813685248⟩)) ∧
      any.mul (any.ofNumber (number.ofDouble ⟨false, 2047, 1⟩)) (any.ofIntegral 1)
        = Outcome.ok (any.ofNumber (number.ofDouble ⟨false, 2047, 2251799813685249⟩)) ∧
      any.div (any.ofNumber (number.ofDouble ⟨false, 2047, 2251799813686358⟩))
          (any.ofNumber (number.ofDouble ⟨true, 2047, 2251799813685539⟩))
        = Outcome.ok (any.ofNumber (number.ofDouble ⟨false, 2047, 2251799813686358⟩)) ∧
      (∀ c d : Double, c.isNaN = true →
        Double.sub c d = Double.quiet c ∧ Double.div c d = Double.quiet c ∧
        (d.isNaN = false →
          Double.add c d = Double.quiet c ∧ Double.mul c d = Double.quiet c) ∧
        (Double.add c d = Double.quiet c ∨ Double.add c d = Double.quiet d) ∧
        (Double.mul c d = Double.quiet c ∨ Double.mul c d = Double.quiet d)) ∧
      (∀ c d : Double, c.isNaN = false → d.isNaN = true →
        Double.add c d = Double.quiet d ∧ Double.sub c d = Double.quiet d ∧
        Double.mul c d = Double.quiet d ∧ Double.div c d = Double.quiet d)) := by
  obtain ⟨tx, vx⟩ := x
  obtain ⟨ty, vy⟩ := y
  simp only at hx hxa hy hyb
  subst hx hxa hy hyb
  refine ⟨⟨rfl, rfl⟩, ⟨rfl, rfl⟩, ⟨rfl, rfl⟩, ⟨rfl, rfl⟩, by decide, by decide, by decide,
    by decide, by decide, by decide, by decide, by decide,
    fun c d hc => ⟨(Double.propagate_first c d hc).2.1, (Double.propagate_first c d hc).2.2.2,
      fun _ => ⟨(Double.propagate_first c d hc).1, (Double.propagate_first c d hc).2.2.1⟩,
      Or.inl (Double.propagate_first c d hc).1, Or.inl (Double.propagate_first c d hc).2.2.1⟩,
    Double.propagate_second⟩

/-- C6, witness: `any(1) / any(0)` returns the number plus infinity. -/
theorem arithmetic_on_numbers_witness :
    any.div (any.ofIntegral 1) (any.ofIntegral 0)
      = Outcome.ok ⟨anyTypeId.number, anyType._number ⟨⟨false⟩, Double.inf false⟩⟩ :=
  (arithmetic_on_numbers (any.ofIntegral 1) (any.ofIntegral 0) (number.ofIntegral 1)
    (number.ofIntegral 0) rfl rfl rfl rfl).2.2.2.1.1.trans (by decide)

theorem any.arith_throws_of_kind (op : number → number → number) (x y : any)
    (hk : x._type ≠ anyTypeId.number ∨ y._type ≠ anyTypeId.number) :
    any.arith op x y = Outcome.thrown "not implemented" := by
  obtain ⟨tx, vx⟩ := x
  obtain ⟨ty, vy⟩ := y
  cases tx <;> cases ty <;> simp_all [any.arith]

theorem any.arith_ok_of_valid (op : number → number → number) (h : Heap) (x y : any)
    (hx : any.valid h x = true) (hy : any.valid h y = true)
    (hkx : x._type = anyTypeId.number) (hky : y._type = anyTypeId.number) :
    ∃ r, any.arith op x y = Outcome.ok r := by
  obtain ⟨tx, vx⟩ := x
  obtain ⟨ty, vy⟩ := y
  simp only at hkx hky
  subst hkx hky
  cases vx <;> cases vy <;> simp [any.valid] at hx hy
  exact ⟨_, rfl⟩

theorem any.arith_ok_iff (op : number → number → number) (h : Heap) (x y : any)
    (hx : any.valid h x = true) (hy : any.valid h y = true) :
    (∃ r, any.arith op x y = Outcome.ok r) ↔
      (x._type = anyTypeId.number ∧ y._type = anyTypeId.number) := by
  constructor
  · rintro ⟨r, hr⟩
    by_contra hk
    have hk2 : x._type ≠ anyTypeId.number ∨ y._type ≠ anyTypeId.number := by
      by_cases h1 : x._type = anyTypeId.number
      · exact Or.inr (fun h2 => hk ⟨h1, h2⟩)
      · exact Or.inl h1
    rw [any.arith_throws_of_kind op x y hk2] at hr
    cases hr
  · rintro ⟨h1, h2⟩
    exact any.arith_ok_of_valid op h x y hx hy h1 h2

/-- C7: when `x` or `y` is not of kind number, each of `x + y`, `x - y`, `x * y` and
`x / y` throws `"not implemented"` and returns no value; and for `x` and `y` whose tag
and payload agree, each operator returns a value exactly when both are of kind
number. -/
theorem arithmetic_fails_unless_both_numbers (x y : any) :
    ((x._type ≠ anyTypeId.number ∨ y._type ≠ anyTypeId.number) →
      any.add x y = Outcome.thrown "not implemented" ∧
      any.sub x y = Outcome.thrown "not implemented" ∧
      any.mul x y = Outcome.thrown "not implemented" ∧
      any.div x y = Outcome.thrown "not implemented") ∧
    (∀ h : Heap, any.valid h x = true → any.valid h y = true →
      ((∃ r, any.add x y = Outcome.ok r) ↔
        (x._type = anyTypeId.number ∧ y._type = anyTypeId.number)) ∧
      ((∃ r, any.sub x y = Outcome.ok r) ↔
        (x._type = anyTypeId.number ∧ y._type = anyTypeId.number)) ∧
      ((∃ r, any.mul x y = Outcome.ok r) ↔
        (x._type = anyTypeId.number ∧ y._type = anyTypeId.number)) ∧
      ((∃ r, any.div x y = Outcome.ok r) ↔
        (x._type = anyTypeId.number ∧ y._type = anyTypeId.number))) := by
  refine ⟨fun hk => ⟨?_, ?_, ?_, ?_⟩, fun h hx hy => ⟨?_, ?_, ?_, ?_⟩⟩
  · exact any.arith_throws_of_kind _ x y hk
  · exact any.arith_throws_of_kind _ x y hk
  · exact any.arith_throws_of_kind _ x y hk
  · exact any.arith_throws_of_kind _ x y hk
  · exact any.arith_ok_iff _ h x y hx hy
  · exact any.arith_ok_iff _ h x y hx hy
  · exact any.arith_ok_iff _ h x y hx hy
  · exact any.arith_ok_iff _ h x y hx hy

/-- C7, witness: the number 2 plus the string `"hi"` throws, and the number 2 plus the
number 3 returns a value. -/
theorem arithmetic_fails_unless_both_numbers_witness :
    any.add (any.ofIntegral 2) ⟨anyTypeId.string, anyType._data 1⟩
        = Outcome.thrown "not implemented" ∧
      ∃ r, any.add (any.ofIntegral 2) (any.ofIntegral 3) = Outcome.ok r :=
  ⟨((arithmetic_fails_unless_both_numbers (any.ofIntegral 2)
      ⟨anyTypeId.string, anyType._data 1⟩).1 (Or.inr (by decide))).1,
    ((arithmetic_fails_unless_both_numbers (any.ofIntegral 2) (any.ofIntegral 3)).2
      heapWithString (by decide) (by decide)).1.mpr ⟨rfl, rfl⟩⟩

/-! ## Indexing, deletion and the kind query -/

/-- C8: for `v` whose tag and payload agree, indexing throws `"wrong type"` when the kind
of `v` is absent, boolean, number, string or callable; when it is sequence or mapping,
indexing returns what the indexing operator of the wrapped `array` or `object` returns
for that index. -/
theorem indexing_dispatch {I ρ : Type} (arrayIndex : js.array → I → ρ)
    (objectIndex : js.object → I → ρ) (h : Heap) (v : any) (t : I)
    (hv : any.valid h v = true) :
    ((v._type = anyTypeId.undefined ∨ v._type = anyTypeId.boolean ∨
        v._type = anyTypeId.number ∨ v._type = anyTypeId.string ∨
        v._type = anyTypeId.function) →
      any.index arrayIndex objectIndex h v t = Outcome.thrown "wrong type") ∧
    (v._type = anyTypeId.array →
      ∃ a, anyType.asArray h v._value = some a ∧
        any.index arrayIndex objectIndex h v t = Outcome.ok (arrayIndex a t)) ∧
    (v._type = anyTypeId.object →
      ∃ o, anyType.asObject h v._value = some o ∧
        any.index arrayIndex objectIndex h v t = Outcome.ok (objectIndex o t)) := by
  obtain ⟨ty, val⟩ := v
  refine ⟨?_, ?_, ?_⟩
  · intro hk
    simp only at hk
    rcases hk with hk | hk | hk | hk | hk <;> subst hk <;> simp [any.index]
  · intro hk
    simp only at hk
    subst hk
    simp only [any.valid] at hv
    obtain ⟨a, ha⟩ := Option.isSome_iff_exists.mp hv
    exact ⟨a, ha, by simp [any.index, ha]⟩
  · intro hk
    simp only at hk
    subst hk
    simp only [any.valid] at hv
    obtain ⟨o, ho⟩ := Option.isSome_iff_exists.mp hv
    exact ⟨o, ho, by simp [any.index, ho]⟩

/-- C8, witness: with list lookup as the indexing of `array`, indexing the number 5
throws `"wrong type"`, and indexing the sequence at address 1 reaches the wrapped
`array`. -/
theorem indexing_dispatch_witness :
    any.index (fun (a : js.array) (i : Nat) => a._values.get? i)
        (fun (_ : js.object) (_ : Nat) => none) heapWithContainers (any.ofIntegral 5) 0
        = Outcome.thrown "wrong type" ∧
      ∃ a, anyType.asArray heapWithContainers (anyType._data 1) = some a ∧
        any.index (fun (a : js.array) (i : Nat) => a._values.get? i)
          (fun (_ : js.object) (_ : Nat) => none) heapWithContainers
          ⟨anyTypeId.array, anyType._data 1⟩ 0 = Outcome.ok (a._values.get? 0) :=
  ⟨(indexing_dispatch _ _ heapWithContainers (any.ofIntegral 5) 0 (by decide)).1
      (Or.inr (Or.inr (Or.inl rfl))),
    (indexing_dispatch (fun (a : js.array) (i : Nat) => a._values.get? i)
      (fun (_ : js.object) (_ : Nat) => none) heapWithContainers
      ⟨anyTypeId.array, anyType._data 1⟩ 0 (by decide)).2.1 rfl⟩

theorem any.asObject_data (h : Heap) (val : anyType) (o : js.object)
    (ho : anyType.asObject h val = some o) :
    ∃ p, val = anyType._data p ∧ h.deref p = some (Cell.object o) := by
  cases val with
  | _boolean b => simp [anyType.asObject] at ho
  | _number n => simp [anyType.asObject] at ho
  | _data p =>
    refine ⟨p, rfl, ?_⟩
    simp only [anyType.asObject] at ho
    split at ho
    · next s hs => cases ho; exact hs
    · cases ho

/-- C9: for `v` whose tag and payload agree, `Delete(field)` returns normally exactly when
the kind of `v` is mapping.  Then, with `o` the wrapped mapping at address `p`: `v` is
unchanged; the mapping at `p` afterwards is `o` with the key erased; it has no entry
for the key; every other key reads as before; if the key had no entry the heap is
unchanged; and every other address of the heap is unchanged.  For every other kind it
throws `"wrong type"`, and `v` and the heap are unchanged. -/
theorem Delete_only_on_mapping (h : Heap) (v : any) (field : List Byte)
    (hv : any.valid h v = true) :
    ((any.Delete v field h).1 = Outcome.ok () ↔ v._type = anyTypeId.object) ∧
    (v._type = anyTypeId.object →
      ∃ p o, v._value = anyType._data p ∧ h.deref p = some (Cell.object o) ∧
        (any.Delete v field h).2.1 = v ∧
        (any.Delete v field h).2.2.deref p = some (Cell.object { o with
          _values := unordered_map.erase o._values (std_string_of_c_str field) }) ∧
        unordered_map.find (unordered_map.erase o._values (std_string_of_c_str field))
          (std_string_of_c_str field) = none ∧
        (∀ key, key ≠ std_string_of_c_str field →
          unordered_map.find (unordered_map.erase o._values (std_string_of_c_str field)) key
            = unordered_map.find o._values key) ∧
        (unordered_map.find o._values (std_string_of_c_str field) = none →
          (any.Delete v field h).2.2 = h) ∧
        (∀ q, q ≠ p → (any.Delete v field h).2.2.deref q = h.deref q)) ∧
    (v._type ≠ anyTypeId.object →
      any.Delete v field h = (Outcome.thrown "wrong type", v, h)) := by
  obtain ⟨ty, val⟩ := v
  have hthrow : ty ≠ anyTypeId.object →
      any.Delete ⟨ty, val⟩ field h = (Outcome.thrown "wrong type", ⟨ty, val⟩, h) := by
    intro hk
    cases ty <;> simp [any.Delete] at hk ⊢
  have hok : ty = anyTypeId.object →
      ∃ p o, val = anyType._data p ∧ h.deref p = some (Cell.object o) ∧
        any.Delete ⟨ty, val⟩ field h = (Outcome.ok (), ⟨ty, val⟩,
          h.store p (Cell.object { o with
            _values := unordered_map.erase o._values (std_string_of_c_str field) })) := by
    intro hk
    subst hk
    simp only [any.valid] at hv
    obtain ⟨o, ho⟩ := Option.isSome_iff_exists.mp hv
    obtain ⟨p, hp, hd⟩ := any.asObject_data h val o ho
    subst hp
    exact ⟨p, o, rfl, hd, by simp [any.Delete, hd]⟩
  refine ⟨?_, ?_, ?_⟩
  · constructor
    · intro hd
      by_contra hk
      rw [hthrow hk] at hd
      cases hd
    · intro hk
      obtain ⟨p, o, -, -, hD⟩ := hok hk
      rw [hD]
  · intro hk
    obtain ⟨p, o, hp, hd, hD⟩ := hok hk
    refine ⟨p, o, hp, hd, ?_, ?_, ?_, ?_, ?_, ?_⟩
    · rw [hD]
    · rw [hD]; exact Heap.deref_store_same h p _ _ hd
    · exact unordered_map.find_erase_self _ _
    · intro key hne; exact unordered_map.find_erase_of_ne _ _ _ hne
    · intro hnone
      rw [hD, unordered_map.erase_of_find_none _ _ hnone]
      exact Heap.store_same h p _ hd
    · intro q hq
      rw [hD]; exact Heap.deref_store_other h p q _ _ hd hq
  · exact hthrow

/-- C9, witness: `Delete("hours")` returns normally on the mapping at address 2 and
throws `"wrong type"` on the sequence at address 1, leaving the heap as it was. -/
theorem Delete_only_on_mapping_witness :
    (any.Delete ⟨anyTypeId.object, anyType._data 2⟩ (c_str (literal "hours"))
        heapWithContainers).1 = Outcome.ok () ∧
      any.Delete ⟨anyTypeId.array, anyType._data 1⟩ (c_str (literal "hours"))
        heapWithContainers
        = (Outcome.thrown "wrong type", ⟨anyTypeId.array, anyType._data 1⟩,
            heapWithContainers) :=
  ⟨(Delete_only_on_mapping heapWithContainers ⟨anyTypeId.object, anyType._data 2⟩
      (c_str (literal "hours")) (by decide)).1.mpr rfl,
    (Delete_only_on_mapping heapWithContainers ⟨anyTypeId.array, anyType._data 1⟩
      (c_str (literal "hours")) (by decide)).2.2 (by decide)⟩

theorem any.typeOf_mk (ty : anyTypeId) (val : anyType) :
    any.typeOf ⟨ty, val⟩ = any.typeOf ⟨ty, anyType.ctor⟩ := by
  cases ty <;> rfl

/-- C10 (amended): `typeOf` returns `"undefined"` for kind absent, `"boolean"` for
boolean, `"number"` for number, `"string"` for string, `"array"` for sequence,
`"object"` for mapping and `"error"` for callable; the result depends only on the kind
tag; for every value whose kind is not callable it is one of the six type names; and
the free function `typeOf(any)` returns the same string as the member. -/
theorem typeOf_names_by_kind (v : any) :
    (v._type = anyTypeId.undefined → v.typeOf = string.ofStdString (literal "undefined")) ∧
    (v._type = anyTypeId.boolean → v.typeOf = string.ofStdString (literal "boolean")) ∧
    (v._type = anyTypeId.number → v.typeOf = string.ofStdString (literal "number")) ∧
    (v._type = anyTypeId.string → v.typeOf = string.ofStdString (literal "string")) ∧
    (v._type = anyTypeId.array → v.typeOf = string.ofStdString (literal "array")) ∧
    (v._type = anyTypeId.object → v.typeOf = string.ofStdString (literal "object")) ∧
    (v._type = anyTypeId.function → v.typeOf = string.ofStdString (literal "error")) ∧
    (∀ w : any, w._type = v._type → w.typeOf = v.typeOf) ∧
    (v._type ≠ anyTypeId.function → v.typeOf ∈ typeNames) ∧
    js.typeOf v = v.typeOf := by
  obtain ⟨ty, val⟩ := v
  refine ⟨?_, ?_, ?_, ?_, ?_, ?_, ?_, ?_, ?_, rfl⟩
  · intro hk; simp only at hk; subst hk; rw [any.typeOf_mk]; decide
  · intro hk; simp only at hk; subst hk; rw [any.typeOf_mk]; decide
  · intro hk; simp only at hk; subst hk; rw [any.typeOf_mk]; decide
  · intro hk; simp only at hk; subst hk; rw [any.typeOf_mk]; decide
  · intro hk; simp only at hk; subst hk; rw [any.typeOf_mk]; decide
  · intro hk; simp only at hk; subst hk; rw [any.typeOf_mk]; decide
  · intro hk; simp only at hk; subst hk; rw [any.typeOf_mk]; decide
  · intro w hw
    obtain ⟨tw, vw⟩ := w
    simp only at hw
    subst hw
    rfl
  · intro hk
    rw [any.typeOf_mk]
    cases ty <;> first | (exact absurd rfl hk) | decide

/-- C10, witness: the sequence at address 1 has the type name `"array"`, one of the
six. -/
theorem typeOf_names_by_kind_witness :
    any.typeOf ⟨anyTypeId.array, anyType._data 1⟩ = string.ofStdString (literal "array") ∧
      any.typeOf ⟨anyTypeId.array, anyType._data 1⟩ ∈ typeNames :=
  ⟨(typeOf_names_by_kind ⟨anyTypeId.array, anyType._data 1⟩).2.2.2.2.1 rfl,
    (typeOf_names_by_kind ⟨anyTypeId.array, anyType._data 1⟩).2.2.2.2.2.2.2.2.1 (by decide)⟩

/-- C10, counterexample: for a value of callable kind `typeOf` returns `"error"`, which
is none of the six type names. -/
theorem typeOf_callable_is_error :
    any.typeOf callableValue = string.ofStdString (literal "error") ∧
      any.typeOf callableValue ∉ typeNames := by
  decide

/-! ## Display -/

theorem any.asString_data (h : Heap) (val : anyType) (s : js.string)
    (hs : anyType.asString h val = some s) :
    ∃ p, val = anyType._data p ∧ h.deref p = some (Cell.string s) := by
  cases val with
  | _boolean b => simp [anyType.asString] at hs
  | _number n => simp [anyType.asString] at hs
  | _data p =>
    refine ⟨p, rfl, ?_⟩
    simp only [anyType.asString] at hs
    split at hs
    · next s2 hs2 => cases hs; exact hs2
    · cases hs

/-- What display writes for a dynamic value `v` whose tag and payload agree: `undefined`
for kind absent; `true` or `false` for boolean, according to the conversion of its
payload to `bool`; the content for string; `[array]`, `[object]` and `[function]` for
sequence, mapping and callable.  The text is `[any]` only for a string with that
content or a number formatted so: the last branch of the operator is never taken. -/
theorem display_by_kind (format : Double → std_string) (h : Heap) (v : any)
    (hv : any.valid h v = true) :
    (v._type = anyTypeId.undefined →
      any.display format h v = Outcome.ok (literal "undefined")) ∧
    (v._type = anyTypeId.boolean →
      ∃ b, v._value = anyType._boolean b ∧
        any.display format h v
          = Outcome.ok (if b.toBool then literal "true" else literal "false")) ∧
    (v._type = anyTypeId.string →
      ∃ s, anyType.asString h v._value = some s ∧
        any.display format h v = Outcome.ok s._value) ∧
    (v._type = anyTypeId.array → any.display format h v = Outcome.ok (literal "[array]")) ∧
    (v._type = anyTypeId.object → any.display format h v = Outcome.ok (literal "[object]")) ∧
    (v._type = anyTypeId.function →
      any.display format h v = Outcome.ok (literal "[function]")) ∧
    (v._type ≠ anyTypeId.number →
      (any.display format h v = Outcome.ok (literal "[any]") ↔
        (v._type = anyTypeId.string ∧
          ∃ s, anyType.asString h v._value = some s ∧ s._value = literal "[any]"))) := by
  obtain ⟨ty, val⟩ := v
  have hU : std_string_of_c_str (c_str (literal "undefined")) = literal "undefined" := by decide
  have hT : std_string_of_c_str (c_str (literal "true")) = literal "true" := by decide
  have hF : std_string_of_c_str (c_str (literal "false")) = literal "false" := by decide
  have hA : std_string_of_c_str (c_str (literal "[array]")) = literal "[array]" := by decide
  have hO : std_string_of_c_str (c_str (literal "[object]")) = literal "[object]" := by decide
  have hC : std_string_of_c_str (c_str (literal "[function]")) = literal "[function]" := by
    decide
  have nU : literal "undefined" ≠ literal "[any]" := by decide
  have nT : literal "true" ≠ literal "[any]" := by decide
  have nF : literal "false" ≠ literal "[any]" := by decide
  have nA : literal "[array]" ≠ literal "[any]" := by decide
  have nO : literal "[object]" ≠ literal "[any]" := by decide
  have nC : literal "[function]" ≠ literal "[any]" := by decide
  cases ty
  case undefined => simp [any.display, hU, nU]
  case boolean =>
    cases val <;> simp [any.valid] at hv
    rename_i b
    by_cases hb : b.toBool = true <;> simp [any.display, boolean.display, hb, hT, hF, nT, nF]
  case number => simp
  case string =>
    simp only [any.valid] at hv
    obtain ⟨s, hs⟩ := Option.isSome_iff_exists.mp hv
    simp [any.display, string.display, hs]
  case function => simp [any.display, hC, nC]
  case array => simp [any.display, hA, nA]
  case object => simp [any.display, hO, nO]

/-- The mapping at address 2 displays as `[object]`, and `any(true)` displays according
to its payload. -/
theorem display_by_kind_witness :
    any.display sampleFormat heapWithContainers ⟨anyTypeId.object, anyType._data 2⟩
        = Outcome.ok (literal "[object]") ∧
      ∃ b, (any.ofBool true)._value = anyType._boolean b ∧
        any.display sampleFormat heapWithContainers (any.ofBool true)
          = Outcome.ok (if b.toBool then literal "true" else literal "false") :=
  ⟨(display_by_kind sampleFormat heapWithContainers ⟨anyTypeId.object, anyType._data 2⟩
      (by decide)).2.2.2.2.1 rfl,
    (display_by_kind sampleFormat heapWithContainers (any.ofBool true) (by decide)).2.1 rfl⟩

/-- C11, the code at the failing input: `any(js::boolean(true))` has the tag `boolean` and
the union member `_number`, holding 1; it is not the value `any(true)`.  Display
takes the boolean branch and reads the member `_boolean`, which is not the active
one: it does not return the text `true`, which `any(true)` displays as. -/
theorem display_of_boolean_wrapper (format : Double → std_string) (h : Heap) :
    any.ofBoolean (boolean.ofBool true)
      = ⟨anyTypeId.boolean, anyType._number (number.ofIntegral 1)⟩ ∧
    any.ofBoolean (boolean.ofBool true) ≠ any.ofBool true ∧
    any.display format h (any.ofBoolean (boolean.ofBool true)) = Outcome.undefinedBehavior ∧
    any.display format h (any.ofBoolean (boolean.ofBool true)) ≠ Outcome.ok (literal "true") ∧
    any.display format h (any.ofBool true) = Outcome.ok (literal "true") := by
  have hT : std_string_of_c_str (c_str (literal "true")) = literal "true" := by decide
  refine ⟨rfl, by decide, rfl, ?_, ?_⟩
  · intro hne
    cases hne
  · simp [any.display, any.ofBool, boolean.display, boolean.toBool, boolean.ofBool,
      undefined_t.ctor, hT]

/-! ## Typed sequences and absent wrappers -/

theorem size_t_of_int_of_nonneg (i : Int) (h0 : 0 ≤ i) (h1 : i < 18446744073709551616) :
    size_t_of_int i = i.toNat := by
  unfold size_t_of_int
  rw [Int.emod_eq_of_lt h0 h1]

theorem size_t_of_int_of_neg (i : Int) (h0 : i < 0) (h1 : -9223372036854775808 ≤ i) :
    9223372036854775808 ≤ size_t_of_int i := by
  unfold size_t_of_int
  omega

/-- C12: for a typed sequence built from the list `values` of at most `2^63` elements,
and an index `i` that is a value of an integral type of at most 64 bits, reading index
`i` returns the element number `i` of `values` when `0 ≤ i < n`, and `T(undefined)`
otherwise, negative `i` included.  For `[1, 2, 3]`, index 5 reads as a value of kind
absent and index 1 as the number 2. -/
theorem ReadOnlyArray_index_in_and_out_of_range {T : Type} (ofUndefined : undefined_t → T)
    (values : List T) (i : Int)
    (hn : values.length ≤ 9223372036854775808)
    (hlo : -9223372036854775808 ≤ i) (hhi : i < 18446744073709551616) :
    ((0 ≤ i ∧ i < values.length) →
      some ((ReadOnlyArray.ofList values).index ofUndefined i) = values.get? i.toNat) ∧
    (¬ (0 ≤ i ∧ i < values.length) →
      (ReadOnlyArray.ofList values).index ofUndefined i = ofUndefined undefined) ∧
    oneTwoThree.index any.ofUndefined 5 = any.ofUndefined undefined ∧
    (any.ofUndefined undefined)._type = anyTypeId.undefined ∧
    oneTwoThree.index any.ofUndefined 1 = any.ofIntegral 2 := by
  refine ⟨?_, ?_, by decide, rfl, by decide⟩
  · rintro ⟨h0, h1⟩
    have hs := size_t_of_int_of_nonneg i h0 hhi
    have hlt : i.toNat < values.length := by omega
    unfold ReadOnlyArray.index
    simp only [ReadOnlyArray.ofList, hs]
    rw [dif_neg (by omega)]
    simp [List.get?_eq_getElem?, hlt]
  · intro hout
    unfold ReadOnlyArray.index
    simp only [ReadOnlyArray.ofList]
    by_cases h0 : 0 ≤ i
    · have hs := size_t_of_int_of_nonneg i h0 hhi
      rw [dif_pos (by omega)]
    · have hs := size_t_of_int_of_neg i (by omega) hlo
      rw [dif_pos (by omega)]

/-- C12, witness: in `[1, 2, 3]` index 2 reads the third element and index -1 reads as
absent. -/
theorem ReadOnlyArray_index_in_and_out_of_range_witness :
    some ((ReadOnlyArray.ofList [any.ofIntegral 1, any.ofIntegral 2, any.ofIntegral 3]).index
        any.ofUndefined 2)
      = [any.ofIntegral 1, any.ofIntegral 2, any.ofIntegral 3].get? (2 : Int).toNat ∧
    (ReadOnlyArray.ofList [any.ofIntegral 1, any.ofIntegral 2, any.ofIntegral 3]).index
        any.ofUndefined (-1) = any.ofUndefined undefined :=
  ⟨(ReadOnlyArray_index_in_and_out_of_range any.ofUndefined
      [any.ofIntegral 1, any.ofIntegral 2, any.ofIntegral 3] 2 (by decide) (by decide)
      (by decide)).1 (by decide),
    (ReadOnlyArray_index_in_and_out_of_range any.ofUndefined
      [any.ofIntegral 1, any.ofIntegral 2, any.ofIntegral 3] (-1) (by decide) (by decide)
      (by decide)).2.1 (by decide)⟩

/-- C13 (amended): a boolean, number or string wrapper constructed from the absence marker
has its absence flag set.  Printed, the boolean gives `false` whatever its payload
field holds, the number gives the formatting of its payload field, and the string
gives the empty text; the absence marker itself gives `undefined`. -/
theorem absent_wrapper_flag_and_display (undef : undefined_t) (b : Bool) (d : Double)
    (format : Double → std_string) :
    (boolean.ofUndefined undef b).isUndefined = true ∧
    (number.ofUndefined undef d).isUndefined = true ∧
    (string.ofUndefined undef).isUndefined = true ∧
    boolean.display (boolean.ofUndefined undef b) = literal "false" ∧
    number.display format (number.ofUndefined undef d) = format d ∧
    string.display (string.ofUndefined undef) = [] ∧
    undefined_t.display undef = literal "undefined" := by
  have hF : std_string_of_c_str (c_str (literal "false")) = literal "false" := by decide
  have hU : std_string_of_c_str (c_str (literal "undefined")) = literal "undefined" := by
    decide
  exact ⟨rfl, rfl, rfl, hF, rfl, rfl, hU⟩

/-- C13, counterexample: the boolean wrapper constructed from the absence marker has its
flag set and prints as `false`, with either payload; the string wrapper prints as the
empty text.  Neither text is `undefined`. -/
theorem absent_boolean_displays_false :
    (boolean.ofUndefined undefined true).isUndefined = true ∧
      boolean.display (boolean.ofUndefined undefined true) = literal "false" ∧
      boolean.display (boolean.ofUndefined undefined false) = literal "false" ∧
      string.display (string.ofUndefined undefined) = literal "" ∧
      literal "false" ≠ literal "undefined" ∧ literal "" ≠ literal "undefined" := by
  decide

/-! ## Conversions -/

/-- C14: for `v` whose tag and payload agree, the conversion to `string` returns a value
exactly when the kind of `v` is string, and throws `"wrong type"` for every other kind.
For `v` built from a string wrapper `s` the conversion returns `s`, right after the
construction and after a later allocation. -/
theorem toString_only_on_string (h : Heap) (v : any) (hv : any.valid h v = true) :
    ((∃ s, any.toString h v = Outcome.ok s) ↔ v._type = anyTypeId.string) ∧
    (v._type ≠ anyTypeId.string → any.toString h v = Outcome.thrown "wrong type") ∧
    (∀ (h0 : Heap) (s : js.string),
      any.toString (ofString s h0).2 (ofString s h0).1 = Outcome.ok s ∧
      ∀ c : Cell, any.toString ((ofString s h0).2.alloc c).2 (ofString s h0).1 = Outcome.ok s) := by
  obtain ⟨ty, val⟩ := v
  have hthrow : ty ≠ anyTypeId.string →
      any.toString h ⟨ty, val⟩ = Outcome.thrown "wrong type" := by
    intro hk
    simp [any.toString, hk]
  refine ⟨⟨?_, ?_⟩, hthrow, ?_⟩
  · rintro ⟨s, hs⟩
    by_contra hk
    rw [hthrow hk] at hs
    cases hs
  · intro hk
    simp only at hk
    subst hk
    simp only [any.valid] at hv
    obtain ⟨s, hs⟩ := Option.isSome_iff_exists.mp hv
    exact ⟨s, by simp [any.toString, hs]⟩
  · intro h0 s
    have h1 : anyType.asString (ofString s h0).2 (ofString s h0).1._value = some s := by
      simp only [ofString, anyType.asString]
      rw [Heap.deref_alloc_new]
    refine ⟨?_, ?_⟩
    · have ht : (ofString s h0).1._type = anyTypeId.string := rfl
      simp [any.toString, ht, h1]
    · intro c
      have h2 : anyType.asString ((ofString s h0).2.alloc c).2 (ofString s h0).1._value
          = some s := by
        simp only [ofString, anyType.asString]
        rw [Heap.deref_alloc_old _ _ _ _ (Heap.deref_alloc_new h0 (Cell.string s))]
      have ht : (ofString s h0).1._type = anyTypeId.string := rfl
      simp [any.toString, ht, h2]

/-- C14, witness: the number 7 does not convert, the string at address 1 does. -/
theorem toString_only_on_string_witness :
    any.toString heapWithString (any.ofIntegral 7) = Outcome.thrown "wrong type" ∧
      ∃ s, any.toString heapWithString ⟨anyTypeId.string, anyType._data 1⟩ = Outcome.ok s :=
  ⟨(toString_only_on_string heapWithString (any.ofIntegral 7) (by decide)).2.1 (by decide),
    (toString_only_on_string heapWithString ⟨anyTypeId.string, anyType._data 1⟩
      (by decide)).1.mpr rfl⟩

/-- C15: the conversion of `v` to `bool` is `false` exactly when the kind of `v` is absent;
the values built from `false`, from `0` and from the empty string convert to `true`,
and the values built from nothing and from the absence marker convert to `false`. -/
theorem toBool_false_iff_absent (v : any) :
    (any.toBool v = false ↔ v._type = anyTypeId.undefined) ∧
    (v._type ≠ anyTypeId.undefined → any.toBool v = true) ∧
    any.toBool (any.ofBool false) = true ∧
    any.toBool (any.ofIntegral 0) = true ∧
    (∀ h : Heap, any.toBool (ofString (string.ofStdString []) h).1 = true) ∧
    any.toBool any.ctor = false ∧
    any.toBool (any.ofUndefined undefined) = false := by
  obtain ⟨ty, val⟩ := v
  refine ⟨?_, ?_, rfl, rfl, fun _ => rfl, rfl, rfl⟩
  · cases ty <;> simp [any.toBool]
  · intro hk
    cases ty <;> simp [any.toBool] at hk ⊢

/-- C15, witness: a value of callable kind converts to `true`. -/
theorem toBool_false_iff_absent_witness : any.toBool callableValue = true :=
  (toBool_false_iff_absent callableValue).2.1 (by decide)

/-- C16 (amended): the absence marker and a boolean wrapper constructed from it convert to
`false`; a boolean wrapper constructed from a literal `b` converts to `b`. -/
theorem truth_of_marker_and_boolean (undef : undefined_t) (b indeterminate : Bool) :
    undefined_t.toBool undefined = false ∧
    boolean.toBool (boolean.ofUndefined undef indeterminate) = false ∧
    boolean.toBool (boolean.ofBool b) = b := by
  refine ⟨rfl, rfl, ?_⟩
  cases b <;> rfl

/-- C16, counterexample: the wrapper `boolean(false)` has its absence flag clear and
converts to `false`. -/
theorem boolean_false_converts_to_false :
    (boolean.ofBool false).isUndefined = false ∧ boolean.toBool (boolean.ofBool false) = false := by
  decide

/-- C17 (amended): when `x` or `y` is not of kind number, each arithmetic operator throws
the fixed message `"not implemented"`, and the outcome is the same as for every other
failing pairing `x2`, `y2`. -/
theorem arithmetic_failure_is_one_message (x y x2 y2 : any)
    (hk : x._type ≠ anyTypeId.number ∨ y._type ≠ anyTypeId.number)
    (hk2 : x2._type ≠ anyTypeId.number ∨ y2._type ≠ anyTypeId.number) :
    (any.add x y = Outcome.thrown "not implemented" ∧ any.add x y = any.add x2 y2) ∧
    (any.sub x y = Outcome.thrown "not implemented" ∧ any.sub x y = any.sub x2 y2) ∧
    (any.mul x y = Outcome.thrown "not implemented" ∧ any.mul x y = any.mul x2 y2) ∧
    (any.div x y = Outcome.thrown "not implemented" ∧ any.div x y = any.div x2 y2) := by
  have h1 := fun op => any.arith_throws_of_kind op x y hk
  have h2 := fun op => any.arith_throws_of_kind op x2 y2 hk2
  exact ⟨⟨h1 _, (h1 _).trans (h2 _).symm⟩, ⟨h1 _, (h1 _).trans (h2 _).symm⟩,
    ⟨h1 _, (h1 _).trans (h2 _).symm⟩, ⟨h1 _, (h1 _).trans (h2 _).symm⟩⟩

/-- C17, witness: boolean plus number fails as absent plus callable does. -/
theorem arithmetic_failure_is_one_message_witness :
    any.add (any.ofBool true) (any.ofIntegral 1) = Outcome.thrown "not implemented" ∧
      any.add (any.ofBool true) (any.ofIntegral 1) = any.add any.ctor callableValue :=
  (arithmetic_failure_is_one_message (any.ofBool true) (any.ofIntegral 1) any.ctor
    callableValue (Or.inl (by decide)) (Or.inl (by decide))).1

/-- C17, counterexample: number plus string and number plus boolean throw the same
message, and so do string plus number and absent plus number. -/
theorem arithmetic_failure_names_no_kind :
    (⟨anyTypeId.string, anyType._data 1⟩ : any)._type ≠ (any.ofBool true)._type ∧
      any.add (any.ofIntegral 2) ⟨anyTypeId.string, anyType._data 1⟩
        = Outcome.thrown "not implemented" ∧
      any.add (any.ofIntegral 2) (any.ofBool true) = Outcome.thrown "not implemented" ∧
      any.add ⟨anyTypeId.string, anyType._data 1⟩ (any.ofIntegral 2)
        = any.add any.ctor (any.ofIntegral 2) := by
  decide

/-! ## Hashing and the kind tag -/

/-- The hash of a dynamic value `v` whose tag and payload agree: `hash` returns
`hash_combine(h1, h2)` converted to `int`, with `h1` the hash of the kind tag and `h2`
equal to 0 for absent, the hash of the boolean payload, of the double payload, of the
string content, or of the address for a mapping.  Any two absent values have the
same hash.  The specialisation of `std::hash` returns the result of `hash`,
converted to `std::size_t`. -/
theorem hash_combines_kind_and_payload (H : Hashers) (h : Heap) (v : any)
    (hv : any.valid h v = true) :
    (∃ h2 : Nat,
      any.hash H h v
        = Outcome.ok (int_of_size_t (H.hash_combine (H.hash_int v._type.toInt) h2)) ∧
      std_hash H h v = Outcome.ok (size_t_of_int
        (int_of_size_t (H.hash_combine (H.hash_int v._type.toInt) h2))) ∧
      (v._type = anyTypeId.undefined → h2 = 0) ∧
      (v._type = anyTypeId.boolean →
        ∃ b, v._value = anyType._boolean b ∧ h2 = H.hash_bool b._value) ∧
      (v._type = anyTypeId.number →
        ∃ n, v._value = anyType._number n ∧ h2 = H.hash_double n._value) ∧
      (v._type = anyTypeId.string →
        ∃ s, anyType.asString h v._value = some s ∧ h2 = H.hash_string s._value) ∧
      (v._type = anyTypeId.object →
        ∃ p, v._value = anyType._data p ∧ h2 = H.hash_pointer p)) ∧
    (∀ (h1 h2 : Heap) (a b : any), a._type = anyTypeId.undefined →
      b._type = anyTypeId.undefined → any.hash H h1 a = any.hash H h2 b) ∧
    std_hash H h v = Outcome.map size_t_of_int (any.hash H h v) := by
  refine ⟨?_, ?_, ?_⟩
  · obtain ⟨ty, val⟩ := v
    cases ty
    case undefined => exact ⟨0, by simp [any.hash, std_hash, any.hash2]⟩
    case boolean =>
      cases val <;> simp [any.valid] at hv
      rename_i b
      exact ⟨H.hash_bool b._value, by simp [any.hash, std_hash, any.hash2]⟩
    case number =>
      cases val <;> simp [any.valid] at hv
      rename_i n
      exact ⟨H.hash_double n._value, by simp [any.hash, std_hash, any.hash2]⟩
    case string =>
      simp only [any.valid] at hv
      obtain ⟨s, hs⟩ := Option.isSome_iff_exists.mp hv
      exact ⟨H.hash_string s._value, by simp [any.hash, std_hash, any.hash2, hs]⟩
    case function => exact ⟨0, by simp [any.hash, std_hash, any.hash2]⟩
    case array => exact ⟨0, by simp [any.hash, std_hash, any.hash2]⟩
    case object =>
      simp only [any.valid] at hv
      obtain ⟨o, ho⟩ := Option.isSome_iff_exists.mp hv
      obtain ⟨p, hp, -⟩ := any.asObject_data h val o ho
      subst hp
      exact ⟨H.hash_pointer p, by simp [any.hash, std_hash, any.hash2]⟩
  · intro h1 h2 a b ha hb
    obtain ⟨ta, va⟩ := a
    obtain ⟨tb, vb⟩ := b
    simp only at ha hb
    subst ha hb
    simp [any.hash, any.hash2]
  · unfold std_hash
    cases any.hash H h v <;> rfl

/-- The hash of the string at address 1 combines the hash of the tag with the hash of
the content. -/
theorem hash_combines_kind_and_payload_witness :
    ∃ h2 : Nat,
      any.hash sampleHashers heapWithString ⟨anyTypeId.string, anyType._data 1⟩
        = Outcome.ok (int_of_size_t (sampleHashers.hash_combine
            (sampleHashers.hash_int anyTypeId.string.toInt) h2)) ∧
      ∃ s, anyType.asString heapWithString (anyType._data 1) = some s ∧
        h2 = sampleHashers.hash_string s._value := by
  obtain ⟨h2, hh, -, -, -, -, hs, -⟩ :=
    (hash_combines_kind_and_payload sampleHashers heapWithString
      ⟨anyTypeId.string, anyType._data 1⟩ (by decide)).1
  exact ⟨h2, hh, hs rfl⟩

/-- The conversion to `int` keeps the low 32 bits, read as a two's complement number:
the result lies in the range of `int` and differs from the argument by a multiple of
`2^32`. -/
theorem int_of_size_t_spec (n : Nat) :
    -2147483648 ≤ int_of_size_t n ∧ int_of_size_t n < 2147483648 ∧
    (int_of_size_t n - (n : Int)) % 4294967296 = 0 := by
  unfold int_of_size_t
  split <;> omega

/-- C18, the code at the failing input: `any(js::boolean(true))` has the tag `boolean` and
the union member `_number`.  For every choice of the hash functions, `hash` takes the
boolean branch and reads the member `_boolean`, which is not the active one: it
does not return the combination of the tag hash with the hash of `true`, which is
the hash of `any(true)`; and `std::hash` does as `hash` does. -/
theorem hash_of_boolean_wrapper (H : Hashers) (h : Heap) :
    any.ofBoolean (boolean.ofBool true)
      = ⟨anyTypeId.boolean, anyType._number (number.ofIntegral 1)⟩ ∧
    any.hash H h (any.ofBoolean (boolean.ofBool true)) = Outcome.undefinedBehavior ∧
    any.hash H h (any.ofBoolean (boolean.ofBool true))
      ≠ Outcome.ok (int_of_size_t (H.hash_combine (H.hash_int 1) (H.hash_bool true))) ∧
    std_hash H h (any.ofBoolean (boolean.ofBool true)) = Outcome.undefinedBehavior ∧
    any.hash H h (any.ofBool true)
      = Outcome.ok (int_of_size_t (H.hash_combine (H.hash_int 1) (H.hash_bool true))) ∧
    -2147483648 ≤ int_of_size_t (H.hash_combine (H.hash_int 1) (H.hash_bool true)) ∧
    int_of_size_t (H.hash_combine (H.hash_int 1) (H.hash_bool true)) < 2147483648 ∧
    (int_of_size_t (H.hash_combine (H.hash_int 1) (H.hash_bool true))
      - (H.hash_combine (H.hash_int 1) (H.hash_bool true) : Int)) % 4294967296 = 0 := by
  have hs := int_of_size_t_spec (H.hash_combine (H.hash_int 1) (H.hash_bool true))
  refine ⟨rfl, rfl, ?_, rfl, rfl, hs.1, hs.2.1, hs.2.2⟩
  intro hne
  cases hne

theorem Step.eq_machine (m : Machine) : (Step.eq m).2 = m := by
  unfold Step.eq
  repeat' split
  all_goals rfl

theorem Step.eq_result (m : Machine) : (Step.eq m).1 = any.eq m.heap m.self m.other := by
  unfold Step.eq any.eq
  repeat' split
  all_goals rfl

theorem Step.arith_machine (op : number → number → number) (m : Machine) :
    (Step.arith op m).2 = m := by
  unfold Step.arith
  repeat' split
  all_goals rfl

theorem Step.arith_result (op : number → number → number) (m : Machine) :
    (Step.arith op m).1 = any.arith op m.self m.other := by
  unfold Step.arith any.arith
  repeat' split
  all_goals rfl

theorem Step.typeOf_machine (m : Machine) : (Step.typeOf m).2 = m := by
  unfold Step.typeOf
  repeat' split
  all_goals rfl

theorem Step.typeOf_result (m : Machine) : (Step.typeOf m).1 = any.typeOf m.self := by
  unfold Step.typeOf any.typeOf
  repeat' split
  all_goals rfl

theorem Step.Delete_result (field : List Byte) (m : Machine) :
    (Step.Delete field m).1 = (any.Delete m.self field m.heap).1 ∧
    (Step.Delete field m).2.self = (any.Delete m.self field m.heap).2.1 ∧
    (Step.Delete field m).2.heap = (any.Delete m.self field m.heap).2.2 := by
  unfold Step.Delete any.Delete
  repeat' split
  all_goals exact ⟨rfl, rfl, rfl⟩

theorem Step.Delete_operands (field : List Byte) (m : Machine) :
    (Step.Delete field m).2.self = m.self ∧ (Step.Delete field m).2.other = m.other := by
  unfold Step.Delete
  repeat' split
  all_goals exact ⟨rfl, rfl⟩

theorem Step.hash_machine (H : Hashers) (m : Machine) : (Step.hash H m).2 = m := by
  unfold Step.hash
  repeat' split
  all_goals rfl

theorem Step.hash_result (H : Hashers) (m : Machine) :
    (Step.hash H m).1 = any.hash H m.heap m.self := by
  unfold Step.hash any.hash any.hash2
  repeat' split
  all_goals first | rfl | simp_all

theorem Step.toString_machine (m : Machine) : (Step.toString m).2 = m := by
  unfold Step.toString
  repeat' split
  all_goals rfl

theorem Step.toString_result (m : Machine) :
    (Step.toString m).1 = any.toString m.heap m.self := by
  unfold Step.toString any.toString
  repeat' split
  all_goals rfl

theorem Step.display_machine (format : Double → std_string) (m : Machine) :
    (Step.display format m).2 = m := by
  unfold Step.display
  repeat' split
  all_goals rfl

theorem Step.display_result (format : Double → std_string) (m : Machine) :
    (Step.display format m).1 = any.display format m.heap m.self := by
  unfold Step.display any.display
  repeat' split
  all_goals rfl

theorem unordered_map.find_of_find_erase (m : List (std_string × any)) (k key : std_string)
    (v : any) (hf : unordered_map.find (unordered_map.erase m k) key = some v) :
    unordered_map.find m key = some v := by
  by_cases hk : key = k
  · subst hk
    rw [unordered_map.find_erase_self] at hf
    cases hf
  · rw [unordered_map.find_erase_of_ne m k key hk] at hf
    exact hf

theorem Step.Delete_heap (field : List Byte) (m : Machine) (q : Nat) (c2 : Cell)
    (hq : (Step.Delete field m).2.heap.deref q = some c2) :
    (Step.Delete field m).2.heap.cells.length = m.heap.cells.length ∧
    ∃ c, m.heap.deref q = some c ∧
      (∀ s, c2 = Cell.string s → c = Cell.string s) ∧
      (∀ a, c2 = Cell.array a → c = Cell.array a) ∧
      (∀ o2, c2 = Cell.object o2 → ∃ o, c = Cell.object o ∧
        ∀ key v, unordered_map.find o2._values key = some v →
          unordered_map.find o._values key = some v) := by
  have same : m.heap.deref q = some c2 →
      ∃ c, m.heap.deref q = some c ∧
        (∀ s, c2 = Cell.string s → c = Cell.string s) ∧
        (∀ a, c2 = Cell.array a → c = Cell.array a) ∧
        (∀ o2, c2 = Cell.object o2 → ∃ o, c = Cell.object o ∧
          ∀ key v, unordered_map.find o2._values key = some v →
            unordered_map.find o._values key = some v) :=
    fun h0 => ⟨c2, h0, fun s hs => hs, fun a ha => ha,
      fun o2 ho => ⟨o2, ho, fun _ _ hf => hf⟩⟩
  unfold Step.Delete at hq ⊢
  split at hq
  · split at hq
    · split at hq
      · rename_i p _ _ o hd
        refine ⟨by simp [Heap.store], ?_⟩
        by_cases hqp : q = p
        · subst hqp
          simp only at hq
          rw [Heap.deref_store_same m.heap q _ _ hd] at hq
          cases hq
          refine ⟨Cell.object o, hd, fun s hs => (by cases hs), fun a ha => (by cases ha), ?_⟩
          intro o2 ho2
          cases ho2
          exact ⟨o, rfl, fun key v hf => unordered_map.find_of_find_erase _ _ _ _ hf⟩
        · simp only at hq
          rw [Heap.deref_store_other m.heap p q _ _ hd hqp] at hq
          exact same hq
      · exact ⟨rfl, same hq⟩
    · exact ⟨rfl, same hq⟩
  · exact ⟨rfl, same hq⟩

/-- C19: each operation (equality, the four arithmetic operators, `typeOf`, `Delete`,
`hash`, the conversions to `bool` and to `string`, display), run as a step that
threads the receiver, the other operand and the heap through the body of the
operator, leaves the kind tags of the receiver and of the other operand as they
were, whether it returned or threw; it leaves both operands as they were
altogether; what the step returns or throws is what the operator returns or throws;
and the heap afterwards has the allocations it had, each string and sequence as it
was, and in each mapping only entries that it had, with the values they had. -/
theorem kind_unchanged_by_operations (H : Hashers) (format : Double → std_string)
    (op : Operation) (m : Machine) :
    (op.run H format m).2.self._type = m.self._type ∧
    (op.run H format m).2.other._type = m.other._type ∧
    (op.run H format m).2.self = m.self ∧
    (op.run H format m).2.other = m.other ∧
    (op.run H format m).1 = op.result H format m ∧
    (op.run H format m).2.heap.cells.length = m.heap.cells.length ∧
    (∀ (q : Nat) (c2 : Cell), (op.run H format m).2.heap.deref q = some c2 →
      ∃ c, m.heap.deref q = some c ∧
        (∀ s, c2 = Cell.string s → c = Cell.string s) ∧
        (∀ a, c2 = Cell.array a → c = Cell.array a) ∧
        (∀ o2, c2 = Cell.object o2 → ∃ o, c = Cell.object o ∧
          ∀ key v, unordered_map.find o2._values key = some v →
            unordered_map.find o._values key = some v)) := by
  have same : ∀ (q : Nat) (c2 : Cell), m.heap.deref q = some c2 →
      ∃ c, m.heap.deref q = some c ∧
        (∀ s, c2 = Cell.string s → c = Cell.string s) ∧
        (∀ a, c2 = Cell.array a → c = Cell.array a) ∧
        (∀ o2, c2 = Cell.object o2 → ∃ o, c = Cell.object o ∧
          ∀ key v, unordered_map.find o2._values key = some v →
            unordered_map.find o._values key = some v) :=
    fun q c2 h0 => ⟨c2, h0, fun s hs => hs, fun a ha => ha,
      fun o2 ho => ⟨o2, ho, fun _ _ hf => hf⟩⟩
  cases op with
  | eq =>
    have hm : (Operation.run H format Operation.eq m).2 = m := Step.eq_machine m
    have hr : (Operation.run H format Operation.eq m).1
        = Operation.result H format Operation.eq m := congrArg (Outcome.map Returned.bool) (Step.eq_result m)
    refine ⟨by rw [hm], by rw [hm], by rw [hm], by rw [hm], hr, by rw [hm], ?_⟩
    intro q c2 hq
    rw [hm] at hq
    exact same q c2 hq
  | add =>
    have hm : (Operation.run H format Operation.add m).2 = m := Step.arith_machine _ m
    have hr : (Operation.run H format Operation.add m).1
        = Operation.result H format Operation.add m := congrArg (Outcome.map Returned.any) (Step.arith_result _ m)
    refine ⟨by rw [hm], by rw [hm], by rw [hm], by rw [hm], hr, by rw [hm], ?_⟩
    intro q c2 hq
    rw [hm] at hq
    exact same q c2 hq
  | sub =>
    have hm : (Operation.run H format Operation.sub m).2 = m := Step.arith_machine _ m
    have hr : (Operation.run H format Operation.sub m).1
        = Operation.result H format Operation.sub m := congrArg (Outcome.map Returned.any) (Step.arith_result _ m)
    refine ⟨by rw [hm], by rw [hm], by rw [hm], by rw [hm], hr, by rw [hm], ?_⟩
    intro q c2 hq
    rw [hm] at hq
    exact same q c2 hq
  | mul =>
    have hm : (Operation.run H format Operation.mul m).2 = m := Step.arith_machine _ m
    have hr : (Operation.run H format Operation.mul m).1
        = Operation.result H format Operation.mul m := congrArg (Outcome.map Returned.any) (Step.arith_result _ m)
    refine ⟨by rw [hm], by rw [hm], by rw [hm], by rw [hm], hr, by rw [hm], ?_⟩
    intro q c2 hq
    rw [hm] at hq
    exact same q c2 hq
  | div =>
    have hm : (Operation.run H format Operation.div m).2 = m := Step.arith_machine _ m
    have hr : (Operation.run H format Operation.div m).1
        = Operation.result H format Operation.div m := congrArg (Outcome.map Returned.any) (Step.arith_result _ m)
    refine ⟨by rw [hm], by rw [hm], by rw [hm], by rw [hm], hr, by rw [hm], ?_⟩
    intro q c2 hq
    rw [hm] at hq
    exact same q c2 hq
  | typeOf =>
    have hm : (Operation.run H format Operation.typeOf m).2 = m := Step.typeOf_machine m
    have hr : (Operation.run H format Operation.typeOf m).1
        = Operation.result H format Operation.typeOf m := congrArg (fun s => Outcome.ok (Returned.string s)) (Step.typeOf_result m)
    refine ⟨by rw [hm], by rw [hm], by rw [hm], by rw [hm], hr, by rw [hm], ?_⟩
    intro q c2 hq
    rw [hm] at hq
    exact same q c2 hq
  | Delete field =>
    have hr := Step.Delete_result field m
    have ho := Step.Delete_operands field m
    refine ⟨congrArg any._type ho.1, congrArg any._type ho.2, ho.1, ho.2,
      congrArg (Outcome.map (fun _ => Returned.void)) hr.1, ?_, ?_⟩
    · unfold Operation.run
      simp only
      unfold Step.Delete
      repeat' split
      all_goals simp [Heap.store]
    · intro q c2 hq
      exact (Step.Delete_heap field m q c2 hq).2
  | hash =>
    have hm : (Operation.run H format Operation.hash m).2 = m := Step.hash_machine H m
    have hr : (Operation.run H format Operation.hash m).1
        = Operation.result H format Operation.hash m := congrArg (Outcome.map Returned.int) (Step.hash_result H m)
    refine ⟨by rw [hm], by rw [hm], by rw [hm], by rw [hm], hr, by rw [hm], ?_⟩
    intro q c2 hq
    rw [hm] at hq
    exact same q c2 hq
  | toBool =>
    have hm : (Operation.run H format Operation.toBool m).2 = m := rfl
    have hr : (Operation.run H format Operation.toBool m).1
        = Operation.result H format Operation.toBool m := rfl
    refine ⟨by rw [hm], by rw [hm], by rw [hm], by rw [hm], hr, by rw [hm], ?_⟩
    intro q c2 hq
    rw [hm] at hq
    exact same q c2 hq
  | toString =>
    have hm : (Operation.run H format Operation.toString m).2 = m := Step.toString_machine m
    have hr : (Operation.run H format Operation.toString m).1
        = Operation.result H format Operation.toString m := congrArg (Outcome.map Returned.string) (Step.toString_result m)
    refine ⟨by rw [hm], by rw [hm], by rw [hm], by rw [hm], hr, by rw [hm], ?_⟩
    intro q c2 hq
    rw [hm] at hq
    exact same q c2 hq
  | display =>
    have hm : (Operation.run H format Operation.display m).2 = m := Step.display_machine format m
    have hr : (Operation.run H format Operation.display m).1
        = Operation.result H format Operation.display m := congrArg (Outcome.map Returned.text) (Step.display_result format m)
    refine ⟨by rw [hm], by rw [hm], by rw [hm], by rw [hm], hr, by rw [hm], ?_⟩
    intro q c2 hq
    rw [hm] at hq
    exact same q c2 hq

/-- C19, witness: `Delete("hours")` on the mapping at address 2, with the sequence at
address 1 as the other operand, leaves both kind tags as they were, and the
sequence at address 1 is stored afterwards as it was. -/
theorem kind_unchanged_by_operations_witness :
    ((Operation.Delete (c_str (literal "hours"))).run sampleHashers sampleFormat
        { self := ⟨anyTypeId.object, anyType._data 2⟩,
          other := ⟨anyTypeId.array, anyType._data 1⟩,
          heap := heapWithContainers }).2.self._type = anyTypeId.object ∧
    ((Operation.Delete (c_str (literal "hours"))).run sampleHashers sampleFormat
        { self := ⟨anyTypeId.object, anyType._data 2⟩,
          other := ⟨anyTypeId.array, anyType._data 1⟩,
          heap := heapWithContainers }).2.other._type = anyTypeId.array ∧
    ∃ c, heapWithContainers.deref 1 = some c ∧
      ∀ a, Cell.array { undefined_t.ctor with _values := [any.ofIntegral 7] } = Cell.array a →
        c = Cell.array a :=
  ⟨(kind_unchanged_by_operations sampleHashers sampleFormat
      (Operation.Delete (c_str (literal "hours")))
      { self := ⟨anyTypeId.object, anyType._data 2⟩,
        other := ⟨anyTypeId.array, anyType._data 1⟩, heap := heapWithContainers }).1,
    (kind_unchanged_by_operations sampleHashers sampleFormat
      (Operation.Delete (c_str (literal "hours")))
      { self := ⟨anyTypeId.object, anyType._data 2⟩,
        other := ⟨anyTypeId.array, anyType._data 1⟩, heap := heapWithContainers }).2.1,
    ((kind_unchanged_by_operations sampleHashers sampleFormat
      (Operation.Delete (c_str (literal "hours")))
      { self := ⟨anyTypeId.object, anyType._data 2⟩,
        other := ⟨anyTypeId.array, anyType._data 1⟩, heap := heapWithContainers }).2.2.2.2.2.2
      1 (Cell.array { undefined_t.ctor with _values := [any.ofIntegral 7] })
      (by decide)).imp (fun _ hc => ⟨hc.1, hc.2.2.1⟩)⟩

/-! ## Reading a mapping -/

/-- C20: when the mapping `o` has no entry for `k`, reading `o[k]` gives a value of kind
absent, by `std::string` key, by C-style text, and through a mapping-kind dynamic
value that wraps `o`; a key reads as absent after it is erased.  For
`{"hours": 3, "minutes": 42}`: `"hours"` reads as the number 3, `"missing"` as absent,
and `"hours"` as absent after `Delete("hours")`. -/
theorem missing_key_reads_absent (o : js.object) (k : std_string)
    (hk : unordered_map.find o._values k = none) :
    object.index o k = any.ofUndefined undefined ∧
    (object.index o k)._type = anyTypeId.undefined ∧
    (∀ field : List Byte, std_string_of_c_str field = k →
      object.indexCStr o field = any.ofUndefined undefined) ∧
    (∀ (arrayIndex : js.array → std_string → any) (h : Heap) (v : any),
      v._type = anyTypeId.object → anyType.asObject h v._value = some o →
      any.index arrayIndex object.index h v k = Outcome.ok (any.ofUndefined undefined)) ∧
    (∀ (key : std_string),
      object.index { o with _values := unordered_map.erase o._values key } key
        = any.ofUndefined undefined) ∧
    (object.indexCStr hoursAndMinutes (c_str (literal "hours")) = any.ofIntegral 3 ∧
      object.indexCStr hoursAndMinutes (c_str (literal "missing"))
        = any.ofUndefined undefined) ∧
    (any.index (fun _ _ => any.ctor) object.indexCStr
        (any.ofObject hoursAndMinutes { cells := [] }).2
        (any.ofObject hoursAndMinutes { cells := [] }).1 (c_str (literal "hours"))
        = Outcome.ok (any.ofIntegral 3) ∧
      any.index (fun _ _ => any.ctor) object.indexCStr
        (any.ofObject hoursAndMinutes { cells := [] }).2
        (any.ofObject hoursAndMinutes { cells := [] }).1 (c_str (literal "missing"))
        = Outcome.ok (any.ofUndefined undefined) ∧
      (any.Delete (any.ofObject hoursAndMinutes { cells := [] }).1 (c_str (literal "hours"))
        (any.ofObject hoursAndMinutes { cells := [] }).2).1 = Outcome.ok () ∧
      any.index (fun _ _ => any.ctor) object.indexCStr
        (any.Delete (any.ofObject hoursAndMinutes { cells := [] }).1 (c_str (literal "hours"))
          (any.ofObject hoursAndMinutes { cells := [] }).2).2.2
        (any.Delete (any.ofObject hoursAndMinutes { cells := [] }).1 (c_str (literal "hours"))
          (any.ofObject hoursAndMinutes { cells := [] }).2).2.1 (c_str (literal "hours"))
        = Outcome.ok (any.ofUndefined undefined)) := by
  have h1 : object.index o k = any.ofUndefined undefined := by
    simp [object.index, hk]
  refine ⟨h1, by rw [h1]; rfl, ?_, ?_, ?_, by decide, by decide⟩
  · intro field hf
    simp only [object.indexCStr, hf, h1]
  · intro arrayIndex h v hv ho
    obtain ⟨ty, val⟩ := v
    simp only at hv ho
    subst hv
    simp [any.index, ho, h1]
  · intro key
    simp [object.index, unordered_map.find_erase_self]

/-- C20, witness: `{"hours": 3, "minutes": 42}` has no entry `"seconds"`. -/
theorem missing_key_reads_absent_witness :
    object.index hoursAndMinutes (literal "seconds") = any.ofUndefined undefined :=
  (missing_key_reads_absent hoursAndMinutes (literal "seconds") (by decide)).1

/-! ## Hashing and equality -/

theorem std_string_of_c_str_of_no_zero (s : std_string) (hs : (0 : Byte) ∉ s) :
    std_string_of_c_str s = s := by
  unfold std_string_of_c_str
  rw [List.takeWhile_eq_self_iff]
  intro c hc
  have : c ≠ 0 := fun h0 => hs (h0 ▸ hc)
  simpa using this

theorem sampleHashers_hash_double (x y : Double) (hxy : Double.eq x y = true) :
    sampleHashers.hash_double x = sampleHashers.hash_double y := by
  show x.frac.val = y.frac.val
  simp only [Double.eq, Double.isZero, Bool.and_eq_true, Bool.or_eq_true, decide_eq_true_eq,
    beq_iff_eq] at hxy
  rcases hxy.2 with ⟨⟨-, h1⟩, ⟨-, h2⟩⟩ | h3
  · rw [h1, h2]
  · rw [h3]

theorem std_hash_congr (H : Hashers) (h : Heap) (a b : any)
    (hh : any.hash H h a = any.hash H h b) : std_hash H h a = std_hash H h b := by
  unfold std_hash
  rw [hh]

/-- Where hashing agrees with equality: when `a == b` returns `true`, `hash(a)` equals
`hash(b)` and the `std::hash` results are equal, for every `hash_combine` and all
payload hash functions in which the hash of `double` agrees on doubles that compare
equal with `==`, provided that, for two strings, neither content contains a zero
byte. -/
theorem hash_consistent_with_eq (H : Hashers) (h : Heap) (a b : any)
    (hD : ∀ x y : Double, Double.eq x y = true → H.hash_double x = H.hash_double y)
    (hS : ∀ s : js.string, a._type = anyTypeId.string →
      (anyType.asString h a._value = some s ∨ anyType.asString h b._value = some s) →
      (0 : Byte) ∉ s._value)
    (heq : any.eq h a b = Outcome.ok true) :
    any.hash H h a = any.hash H h b ∧ std_hash H h a = std_hash H h b := by
  have key : any.hash H h a = any.hash H h b := by
    obtain ⟨ta, va⟩ := a
    obtain ⟨tb, vb⟩ := b
    have ht : ta = tb := by
      by_contra hne
      simp [any.eq, hne] at heq
    subst ht
    cases ta with
    | undefined => simp [any.hash, any.hash2]
    | boolean =>
      cases va <;> cases vb <;> simp [any.eq] at heq
      simp [any.hash, any.hash2, heq]
    | number =>
      cases va <;> cases vb <;> simp [any.eq] at heq
      simp [any.hash, any.hash2, hD _ _ heq]
    | string =>
      simp only [any.eq, ne_eq, not_true_eq_false, if_false] at heq
      cases hsa : anyType.asString h va with
      | none => simp [hsa] at heq
      | some sa =>
        cases hsb : anyType.asString h vb with
        | none => simp [hsa, hsb] at heq
        | some sb =>
          obtain ⟨r, hr, hiff⟩ := strcmp_c_str sa._value sb._value
          simp only [hsa, hsb, hr, Outcome.ok.injEq, beq_iff_eq] at heq
          have hza := hS sa rfl (Or.inl hsa)
          have hzb := hS sb rfl (Or.inr hsb)
          have hc := hiff.mp heq
          rw [std_string_of_c_str_of_no_zero _ hza, std_string_of_c_str_of_no_zero _ hzb] at hc
          simp [any.hash, any.hash2, hsa, hsb, hc]
    | function => simp [any.eq] at heq
    | array => simp [any.eq] at heq
    | object =>
      cases va <;> cases vb <;> simp [any.eq] at heq
      simp [any.hash, any.hash2, heq]
  exact ⟨key, std_hash_congr H h a b key⟩

/-- With the sample hash functions, plus zero and minus zero compare equal and hash
alike, and so do two values built one after the other from the string `"hi"`. -/
theorem hash_consistent_with_eq_witness :
    (any.hash sampleHashers { cells := [] } (any.ofIntegral 0)
        = any.hash sampleHashers { cells := [] } minusZero ∧
      std_hash sampleHashers { cells := [] } (any.ofIntegral 0)
        = std_hash sampleHashers { cells := [] } minusZero) ∧
    (any.hash sampleHashers
        (ofString (string.ofStdString (literal "hi"))
          (ofString (string.ofStdString (literal "hi")) { cells := [] }).2).2
        (ofString (string.ofStdString (literal "hi")) { cells := [] }).1
        = any.hash sampleHashers
          (ofString (string.ofStdString (literal "hi"))
            (ofString (string.ofStdString (literal "hi")) { cells := [] }).2).2
          (ofString (string.ofStdString (literal "hi"))
            (ofString (string.ofStdString (literal "hi")) { cells := [] }).2).1 ∧
      std_hash sampleHashers
        (ofString (string.ofStdString (literal "hi"))
          (ofString (string.ofStdString (literal "hi")) { cells := [] }).2).2
        (ofString (string.ofStdString (literal "hi")) { cells := [] }).1
        = std_hash sampleHashers
          (ofString (string.ofStdString (literal "hi"))
            (ofString (string.ofStdString (literal "hi")) { cells := [] }).2).2
          (ofString (string.ofStdString (literal "hi"))
            (ofString (string.ofStdString (literal "hi")) { cells := [] }).2).1) :=
  ⟨hash_consistent_with_eq sampleHashers { cells := [] } (any.ofIntegral 0) minusZero
      sampleHashers_hash_double (fun _ ht => absurd ht (by decide)) (by decide),
    hash_consistent_with_eq sampleHashers _ _ _ sampleHashers_hash_double
      (fun s _ hs => by
        have hlit : s = string.ofStdString (literal "hi") := by
          rcases hs with hs | hs <;>
            exact (Option.some.inj ((show _ = some (string.ofStdString (literal "hi")) from
              rfl).symm.trans hs)).symm
        subst hlit
        decide)
      (by decide)⟩

theorem bytewiseHashers_hash_double (x y : Double) (hxy : Double.eq x y = true) :
    bytewiseHashers.hash_double x = bytewiseHashers.hash_double y := by
  simp only [Double.eq, Bool.and_eq_true, Bool.or_eq_true, decide_eq_true_eq] at hxy
  rcases hxy.2 with ⟨h1, h2⟩ | h3
  · simp [bytewiseHashers, h1, h2]
  · rw [h3]

/-- C21, the code at the failing input: the dynamic values built from the strings with
the bytes `a 0 b` and `a 0 c` compare equal, while for every choice of the hash
functions their hashes are the combinations of the tag hash with the hashes of the
two full contents.  Under `bytewiseHashers`, whose hash of `double` agrees on doubles
that compare equal, the two hashes are 93408 and 93409. -/
theorem hash_differs_on_strings_equal_up_to_zero_byte :
    any.eq
      (ofString (string.ofStdString [97, 0, 99])
        (ofString (string.ofStdString [97, 0, 98]) { cells := [] }).2).2
      (ofString (string.ofStdString [97, 0, 98]) { cells := [] }).1
      (ofString (string.ofStdString [97, 0, 99])
        (ofString (string.ofStdString [97, 0, 98]) { cells := [] }).2).1
      = Outcome.ok true ∧
    (∀ H : Hashers,
      any.hash H
        (ofString (string.ofStdString [97, 0, 99])
          (ofString (string.ofStdString [97, 0, 98]) { cells := [] }).2).2
        (ofString (string.ofStdString [97, 0, 98]) { cells := [] }).1
        = Outcome.ok (int_of_size_t
            (H.hash_combine (H.hash_int 3) (H.hash_string [97, 0, 98]))) ∧
      any.hash H
        (ofString (string.ofStdString [97, 0, 99])
          (ofString (string.ofStdString [97, 0, 98]) { cells := [] }).2).2
        (ofString (string.ofStdString [97, 0, 99])
          (ofString (string.ofStdString [97, 0, 98]) { cells := [] }).2).1
        = Outcome.ok (int_of_size_t
            (H.hash_combine (H.hash_int 3) (H.hash_string [97, 0, 99])))) ∧
    (∀ x y : Double, Double.eq x y = true →
      bytewiseHashers.hash_double x = bytewiseHashers.hash_double y) ∧
    any.hash bytewiseHashers
      (ofString (string.ofStdString [97, 0, 99])
        (ofString (string.ofStdString [97, 0, 98]) { cells := [] }).2).2
      (ofString (string.ofStdString [97, 0, 98]) { cells := [] }).1 = Outcome.ok 93408 ∧
    any.hash bytewiseHashers
      (ofString (string.ofStdString [97, 0, 99])
        (ofString (string.ofStdString [97, 0, 98]) { cells := [] }).2).2
      (ofString (string.ofStdString [97, 0, 99])
        (ofString (string.ofStdString [97, 0, 98]) { cells := [] }).2).1
      = Outcome.ok 93409 ∧
    std_hash bytewiseHashers
      (ofString (string.ofStdString [97, 0, 99])
        (ofString (string.ofStdString [97, 0, 98]) { cells := [] }).2).2
      (ofString (string.ofStdString [97, 0, 98]) { cells := [] }).1 = Outcome.ok 93408 ∧
    std_hash bytewiseHashers
      (ofString (string.ofStdString [97, 0, 99])
        (ofString (string.ofStdString [97, 0, 98]) { cells := [] }).2).2
      (ofString (string.ofStdString [97, 0, 99])
        (ofString (string.ofStdString [97, 0, 98]) { cells := [] }).2).1
      = Outcome.ok 93409 := by
  refine ⟨by decide, fun H => ⟨rfl, rfl⟩, bytewiseHashers_hash_double, by decide, by decide,
    by decide, by decide⟩

end js
